import Mathlib

/-!
Verification development for the pmp-library surface-mesh simplification core
(`src/pmp/algorithms/SurfaceSimplification.{h,cpp}`).

The decimation engine itself (collapse-candidate data, legality predicates,
priority function, scheduling and driver loop) is embedded directly from the
two source files.  The external collaborators the source consumes through a
fixed interface — the halfedge mesh (`SurfaceMesh`), the error quadric
(`Quadric`), the normal cone (`NormalCone`), the indexed priority queue
(`Heap`), the face-normal computation (`SurfaceNormals`) and the numeric
utilities (`norm`, `dist_point_triangle`) — are not part of the source tree
and are modelled from the specification, as records of data and functions.
`Scalar` (a C++ float in the source) is idealized as the rationals.
-/

namespace PmpSimplification

/-- Vertex handles of the mesh collaborator, as plain indices. -/
abbrev V := Nat

/-- Halfedge handles of the mesh collaborator. -/
abbrev H := Nat

/-- Face handles of the mesh collaborator. -/
abbrev F := Nat

/-- Edge handles of the mesh collaborator. -/
abbrev E := Nat

/-- Modelled from the spec: the 3-D point/vector type of the math collaborator
(`Point` / `Normal` in the source, components idealized as rationals). -/
structure Vec3 where
  x : ℚ
  y : ℚ
  z : ℚ
deriving DecidableEq

/-- Point is a synonym for `Vec3`, as in the source. -/
abbrev Point := Vec3

namespace Vec3

/-- Componentwise subtraction of vectors. -/
def sub (a b : Vec3) : Vec3 := ⟨a.x - b.x, a.y - b.y, a.z - b.z⟩

instance : Sub Vec3 := ⟨Vec3.sub⟩

/-- Componentwise addition of vectors. -/
def add (a b : Vec3) : Vec3 := ⟨a.x + b.x, a.y + b.y, a.z + b.z⟩

instance : Add Vec3 := ⟨Vec3.add⟩

/-- Scaling of a vector by a rational. -/
def smul (t : ℚ) (a : Vec3) : Vec3 := ⟨t * a.x, t * a.y, t * a.z⟩

/-- The zero vector. -/
def zero : Vec3 := ⟨0, 0, 0⟩

instance : Zero Vec3 := ⟨Vec3.zero⟩

end Vec3

/-- Modelled from the spec: the dot product of the math collaborator. -/
def dot (a b : Vec3) : ℚ := a.x * b.x + a.y * b.y + a.z * b.z

/-- Modelled from the spec: the cross product of the math collaborator. -/
def cross (a b : Vec3) : Vec3 :=
  ⟨a.y * b.z - a.z * b.y, a.z * b.x - a.x * b.z, a.x * b.y - a.y * b.x⟩

/-- Modelled from the spec: squared Euclidean norm (`sqrnorm`) of the math
collaborator; exactly representable over the rationals. -/
def sqrnorm (a : Vec3) : ℚ := dot a a

/-- Modelled from the spec: the error quadric collaborator
(`pmp/algorithms/Quadric.h`, not under `src/`).  Represents the functional
`Q(p) = pᵀAp + 2bᵀp + c` by the six entries of the symmetric matrix `A`,
the vector `b` and the scalar `c`; quadrics add coefficient-wise. -/
structure Quadric where
  a00 : ℚ
  a01 : ℚ
  a02 : ℚ
  a11 : ℚ
  a12 : ℚ
  a22 : ℚ
  b0 : ℚ
  b1 : ℚ
  b2 : ℚ
  c : ℚ
deriving DecidableEq

namespace Quadric

/-- Modelled from the spec: the cleared (zero) quadric (`clear()`). -/
def zero : Quadric := ⟨0, 0, 0, 0, 0, 0, 0, 0, 0, 0⟩

/-- Modelled from the spec: the planar quadric for the plane through point `p`
with normal `n` (`Quadric(normal, point)`), whose evaluation approximates the
squared distance to that plane. -/
def ofPlane (n : Vec3) (p : Point) : Quadric :=
  let d : ℚ := -(dot n p)
  ⟨n.x * n.x, n.x * n.y, n.x * n.z, n.y * n.y, n.y * n.z, n.z * n.z,
   d * n.x, d * n.y, d * n.z, d * d⟩

/-- Modelled from the spec: coefficient-wise sum of two quadrics
(`operator+=`). -/
def add (p q : Quadric) : Quadric :=
  ⟨p.a00 + q.a00, p.a01 + q.a01, p.a02 + q.a02, p.a11 + q.a11, p.a12 + q.a12,
   p.a22 + q.a22, p.b0 + q.b0, p.b1 + q.b1, p.b2 + q.b2, p.c + q.c⟩

/-- Modelled from the spec: evaluation of a quadric at a point
(`operator()(p)` = `pᵀAp + 2bᵀp + c`). -/
def eval (q : Quadric) (p : Point) : ℚ :=
  (q.a00 * p.x * p.x + q.a11 * p.y * p.y + q.a22 * p.z * p.z
    + 2 * q.a01 * p.x * p.y + 2 * q.a02 * p.x * p.z + 2 * q.a12 * p.y * p.z)
  + 2 * (q.b0 * p.x + q.b1 * p.y + q.b2 * p.z) + q.c

end Quadric

/-- Modelled from the spec: the bounding normal cone collaborator
(`pmp/algorithms/NormalCone.h`, not under `src/`): an axis and a half-angle. -/
structure NormalCone where
  axisDir : Vec3
  halfAngle : ℚ
deriving DecidableEq

namespace NormalCone

/-- Modelled from the spec: a cone built from one normal has zero
half-angle. -/
def ofNormal (n : Vec3) : NormalCone := ⟨n, 0⟩

/-- Modelled from the spec: the `angle()` query returns the half-angle. -/
def angle (nc : NormalCone) : ℚ := nc.halfAngle

end NormalCone

/-- Modelled from the spec: the numeric collaborator operations the core
consumes but whose implementations live outside `src/`: the Euclidean norm
(irrational in general, hence kept abstract), the point-to-triangle distance
(`dist_point_triangle`), and the normal-cone merge operations (the spec
allows any conservative merge).  The embedded code is parameterized over this
record. -/
structure Ext where
  norm : Vec3 → ℚ
  distPT : Point → Point → Point → Point → ℚ
  mergeN : NormalCone → Vec3 → NormalCone
  mergeC : NormalCone → NormalCone → NormalCone

/-- Modelled from the spec: the read-only topology interface of the halfedge
mesh collaborator (`SurfaceMesh`, out of scope of the source tree), §6 of the
spec: element enumeration, circulators, topology queries and the
collapse-safety check.  A concrete mesh instantiates every field.  The
topological collapse itself and garbage collection are passed separately as
functions because they produce a new topology. -/
structure MeshTopo where
  vertexList : List V
  isTriangle : Bool
  halfedgesOf : V → List H
  facesOf : V → List F
  verticesOf : V → List V
  faceVerts : F → List V
  toVertex : H → V
  oppositeH : H → H
  nextH : H → H
  prevH : H → H
  faceOfH : H → Option F
  edgeOfH : H → E
  valence : V → Nat
  isBoundaryV : V → Bool
  isIsolatedV : V → Bool
  cwRotated : H → H
  isCollapseOkB : H → Bool

namespace MeshTopo

/-- Modelled from the spec: `from_vertex(h)` of the mesh collaborator, the
origin of a halfedge, defined as `to_vertex(opposite_halfedge(h))`. -/
def fromVertex (m : MeshTopo) (h : H) : V := m.toVertex (m.oppositeH h)

/-- Modelled from the spec: `n_vertices()` is the number of live vertices. -/
def nVertices (m : MeshTopo) : Nat := m.vertexList.length

end MeshTopo

/-- CollapseData from the source header: the snapshot of the local topology
around a candidate halfedge collapse.  Handles that the source leaves
default-invalid unless set are represented with `Option`. -/
structure CollapseData where
  v0v1 : H
  v1v0 : H
  v0 : V
  v1 : V
  fl : Option F
  fr : Option F
  vl : Option V
  vr : Option V
  v1vl : Option H
  vlv0 : Option H
  v0vr : Option H
  vrv1 : Option H

/-- CollapseData constructor, from the source (`SurfaceSimplification.cpp`,
`CollapseData::CollapseData`): computes the reverse halfedge, both endpoints,
the two incident faces and, when each face exists, the wing vertex and the
bounding halfedges. -/
def mkCollapseData (m : MeshTopo) (h : H) : CollapseData :=
  let v0v1 := h
  let v1v0 := m.oppositeH v0v1
  let v0 := m.toVertex v1v0
  let v1 := m.toVertex v0v1
  let fl := m.faceOfH v0v1
  let fr := m.faceOfH v1v0
  let v1vl : Option H := if fl.isSome then some (m.nextH v0v1) else none
  let vlv0 : Option H := v1vl.map m.nextH
  let vl : Option V := v1vl.map m.toVertex
  let v0vr : Option H := if fr.isSome then some (m.nextH v1v0) else none
  let vrv1 : Option H := v0vr.map m.prevH
  let vr : Option V := vrv1.map m.fromVertex
  ⟨v0v1, v1v0, v0, v1, fl, fr, vl, vr, v1vl, vlv0, v0vr, vrv1⟩

/-- The full state of one `SurfaceSimplification` engine bound to one mesh:
the mesh topology plus the per-element properties and configuration flags
held by the class (`vpoint_`, `vquadric_`, `fnormal_`, `normal_cone_`,
`face_points_`, selection/feature markers, the five bounds and the
`initialized_` flag). -/
structure SimpState where
  mesh : MeshTopo
  vpoint : V → Point
  vquadric : V → Quadric
  fnormal : F → Vec3
  normalCone : F → NormalCone
  facePoints : F → List Point
  vselected : V → Bool
  vfeature : V → Bool
  efeature : E → Bool
  hasSelection : Bool
  hasFeatures : Bool
  aspectRatio : ℚ
  edgeLength : ℚ
  normalDeviation : ℚ
  hausdorffError : ℚ
  maxValence : Nat
  initialized : Bool

/-- Modelled from the spec: face-normal computation of the `SurfaceNormals`
collaborator (`compute_face_normal`), evaluated at the current positions of
the face's vertices.  Normalization is omitted (a positive scaling), since
the core consumes recomputed normals only through dot-product signs and the
abstract cone-merge operations. -/
def computeFaceNormal (vp : V → Point) (m : MeshTopo) (f : F) : Vec3 :=
  let vs := m.faceVerts f
  let p0 := vp (vs.getD 0 0)
  let p1 := vp (vs.getD 1 0)
  let p2 := vp (vs.getD 2 0)
  cross (p1 - p0) (p2 - p0)

/-- FLT_MAX, the sentinel used for minimum searches in the source, as an
exact rational (`2^128 - 2^104`). -/
def fltMax : ℚ := 340282346638528859811704183484516925440

/-- M_PI as the decimal constant the C header expands to, used by
`initialize` to convert degrees to radians. -/
def mPi : ℚ := 3.14159265358979323846

/-- Selection constraint of `is_collapse_legal` (source lines 292-297): when a
selection is active, the removed vertex `v0` must be selected. -/
def selectionReject (st : SimpState) (cd : CollapseData) : Bool :=
  st.hasSelection && !(st.vselected cd.v0)

/-- Feature constraint of `is_collapse_legal` (source lines 299-310). -/
def featureReject (st : SimpState) (cd : CollapseData) : Bool :=
  st.hasFeatures &&
    ((st.vfeature cd.v0 && !(st.efeature (st.mesh.edgeOfH cd.v0v1)))
      || (cd.vl.isSome &&
            (match cd.vlv0 with
             | some hh => st.efeature (st.mesh.edgeOfH hh)
             | none => false))
      || (cd.vr.isSome &&
            (match cd.v0vr with
             | some hh => st.efeature (st.mesh.edgeOfH hh)
             | none => false)))

/-- Boundary constraint of `is_collapse_legal` (source lines 312-314): a
boundary vertex may not collapse onto an interior vertex. -/
def boundaryReject (st : SimpState) (cd : CollapseData) : Bool :=
  st.mesh.isBoundaryV cd.v0 && !(st.mesh.isBoundaryV cd.v1)

/-- Minimum-incidence constraint of `is_collapse_legal` (source lines
316-318): `v0` must have at least two incident faces. -/
def minIncidenceReject (st : SimpState) (cd : CollapseData) : Bool :=
  st.mesh.cwRotated (st.mesh.cwRotated cd.v0v1) == cd.v0v1

/-- Topological link-condition check of `is_collapse_legal` (source lines
320-322), delegated to the mesh collaborator. -/
def topoReject (st : SimpState) (cd : CollapseData) : Bool :=
  !(st.mesh.isCollapseOkB cd.v0v1)

/-- The post-collapse valence of the surviving vertex as computed by the
source (lines 327-333): `val0 + val1 - 1`, decremented once for each of the
left and right faces that exists. -/
def postCollapseValence (m : MeshTopo) (cd : CollapseData) : Nat :=
  let val0 := m.valence cd.v0
  let val1 := m.valence cd.v1
  let val := val0 + val1 - 1
  let val' := if cd.fl.isSome then val - 1 else val
  if cd.fr.isSome then val' - 1 else val'

/-- Valence-bound check of `is_collapse_legal` (source lines 324-336). -/
def valenceReject (st : SimpState) (cd : CollapseData) : Bool :=
  if st.maxValence > 0 then
    let val0 := st.mesh.valence cd.v0
    let val1 := st.mesh.valence cd.v1
    let val := postCollapseValence st.mesh cd
    decide (val > st.maxValence) && !(decide (val < max val0 val1))
  else false

/-- Edge-length check of `is_collapse_legal` (source lines 342-353): reject
when a one-ring neighbour other than `v1`, `vl`, `vr` ends up farther than the
bound from the surviving position `p1`. -/
def edgeLengthReject (ext : Ext) (st : SimpState) (cd : CollapseData)
    (p1 : Point) : Bool :=
  if st.edgeLength ≠ 0 then
    (st.mesh.verticesOf cd.v0).any (fun v =>
      (decide (v ≠ cd.v1) && decide (some v ≠ cd.vl) && decide (some v ≠ cd.vr))
        && decide (ext.norm (st.vpoint v - p1) > st.edgeLength))
  else false

/-- Normal-flip check of `is_collapse_legal` (source lines 355-373), with the
vertex tentatively moved (map `vpM`): some incident face other than `fl`, `fr`
has a recomputed normal with negative dot product against the stored face
normal property `fnormal`. -/
def flipReject (st : SimpState) (cd : CollapseData) (vpM : V → Point) : Bool :=
  (st.mesh.facesOf cd.v0).any (fun f =>
    (decide (some f ≠ cd.fl) && decide (some f ≠ cd.fr))
      && decide (dot (st.fnormal f) (computeFaceNormal vpM st.mesh f) < 0))

/-- Normal-cone check of `is_collapse_legal` (source lines 375-409), with the
vertex tentatively moved (map `vpM`). -/
def coneReject (ext : Ext) (st : SimpState) (cd : CollapseData)
    (vpM : V → Point) : Bool :=
  let fll : Option F :=
    if cd.vl.isSome then st.mesh.faceOfH (st.mesh.oppositeH (st.mesh.prevH cd.v0v1))
    else none
  let frr : Option F :=
    if cd.vr.isSome then st.mesh.faceOfH (st.mesh.oppositeH (st.mesh.nextH cd.v1v0))
    else none
  (st.mesh.facesOf cd.v0).any (fun f =>
    (decide (some f ≠ cd.fl) && decide (some f ≠ cd.fr)) &&
      (let nc := ext.mergeN (st.normalCone f) (computeFaceNormal vpM st.mesh f)
       let nc1 := if some f = fll then ext.mergeC nc (st.normalCone (cd.fl.getD 0)) else nc
       let nc2 := if some f = frr then ext.mergeC nc1 (st.normalCone (cd.fr.getD 0)) else nc1
       decide (nc2.angle > 0.5 * st.normalDeviation)))

/-- Aspect-ratio of a face, from the source (`SurfaceSimplification::aspect_ratio`,
lines 576-603): maximum squared edge length divided by the (collaborator)
norm of the cross product of two edge vectors; no guard against a zero
denominator. -/
def aspect_ratio (ext : Ext) (vp : V → Point) (m : MeshTopo) (f : F) : ℚ :=
  let vs := m.faceVerts f
  let p0 := vp (vs.getD 0 0)
  let p1 := vp (vs.getD 1 0)
  let p2 := vp (vs.getD 2 0)
  let d0 := p0 - p1
  let d1 := p1 - p2
  let d2 := p2 - p0
  let l0 := sqrnorm d0
  let l1 := sqrnorm d1
  let l2 := sqrnorm d2
  let l := max l0 (max l1 l2)
  let a := ext.norm (cross d0 d1)
  l / a

/-- The one-pass fold of the aspect-ratio loop of `is_collapse_legal` (source
lines 414-427): over the faces incident to `v0` other than `fl`, `fr`,
accumulate the worst ratio before the move (first component, map `vpO`) and
after the move (second component, map `vpM`). -/
def arFold (ext : Ext) (m : MeshTopo) (cd : CollapseData)
    (vpM vpO : V → Point) : ℚ × ℚ :=
  (m.facesOf cd.v0).foldl
    (fun ar f =>
      if decide (some f ≠ cd.fl) && decide (some f ≠ cd.fr) then
        (max ar.1 (aspect_ratio ext vpO m f), max ar.2 (aspect_ratio ext vpM m f))
      else ar)
    (0, 0)

/-- The aspect-ratio rejection condition of `is_collapse_legal` (source lines
429-431): the post-move worst ratio exceeds the bound and also exceeds the
pre-move worst ratio. -/
def arCheckRejects (ext : Ext) (st : SimpState) (cd : CollapseData)
    (vpM vpO : V → Point) : Bool :=
  let ar := arFold ext st.mesh cd vpM vpO
  decide (ar.2 > st.aspectRatio) && decide (ar.2 > ar.1)

/-- Distance from a point to a face, from the source
(`SurfaceSimplification::distance`, lines 607-619), via the collaborator
point-to-triangle distance. -/
def distanceFn (ext : Ext) (vp : V → Point) (m : MeshTopo) (f : F)
    (p : Point) : ℚ :=
  let vs := m.faceVerts f
  ext.distPT p (vp (vs.getD 0 0)) (vp (vs.getD 1 0)) (vp (vs.getD 2 0))

/-- The Hausdorff test loop of `is_collapse_legal` (source lines 448-471):
every gathered point must be within the bound of some face incident to `v0`
other than `fl`, `fr`, at the moved positions `vpH`. -/
def hausdorffOkAll (ext : Ext) (st : SimpState) (cd : CollapseData)
    (vpH : V → Point) (pts : List Point) : Bool :=
  pts.all (fun p =>
    (st.mesh.facesOf cd.v0).any (fun f =>
      (decide (some f ≠ cd.fl) && decide (some f ≠ cd.fr))
        && decide (distanceFn ext vpH st.mesh f p < st.hausdorffError)))

/-- Hausdorff-error stage of `is_collapse_legal` (source lines 434-473),
threading the vertex-position map: gather the sample points of all faces
around `v0` plus `v0`'s own position, tentatively move `v0`, test, and
restore the position on both verdicts. -/
def hausdorffStage (ext : Ext) (st : SimpState) (cd : CollapseData)
    (p0 p1 : Point) (vp : V → Point) : Bool × (V → Point) :=
  if st.hausdorffError ≠ 0 then
    let pts := ((st.mesh.facesOf cd.v0).flatMap st.facePoints) ++ [vp cd.v0]
    let vpH := Function.update vp cd.v0 p1
    if hausdorffOkAll ext st cd vpH pts then (true, Function.update vpH cd.v0 p0)
    else (false, Function.update vpH cd.v0 p0)
  else (true, vp)

/-- Aspect-ratio stage of `is_collapse_legal` (source lines 411-432),
threading the vertex-position map.  The loop body moves `v0` to `p1` and
back to `p0` once per qualifying face, so after the loop the live map is the
`p0`-updated one exactly when a qualifying face exists. -/
def aspectStage (ext : Ext) (st : SimpState) (cd : CollapseData)
    (p0 p1 : Point) (vp : V → Point) : Bool × (V → Point) :=
  if st.aspectRatio ≠ 0 then
    let vpM := Function.update vp cd.v0 p1
    let vpO := Function.update vp cd.v0 p0
    let vp' :=
      if (st.mesh.facesOf cd.v0).any
          (fun f => decide (some f ≠ cd.fl) && decide (some f ≠ cd.fr))
      then vpO else vp
    if arCheckRejects ext st cd vpM vpO then (false, vp')
    else hausdorffStage ext st cd p0 p1 vp'
  else hausdorffStage ext st cd p0 p1 vp

/-- Shape-preservation stage of `is_collapse_legal` (source lines 355-409):
tentatively move `v0` to `p1` and run either the direct flip test (angular
deviation disabled) or the normal-cone test, restoring the position on every
exit path before the later stages run. -/
def shapeStage (ext : Ext) (st : SimpState) (cd : CollapseData)
    (p0 p1 : Point) : Bool × (V → Point) :=
  if st.normalDeviation = 0 then
    let vpM := Function.update st.vpoint cd.v0 p1
    if flipReject st cd vpM then (false, Function.update vpM cd.v0 p0)
    else aspectStage ext st cd p0 p1 (Function.update vpM cd.v0 p0)
  else
    let vpM := Function.update st.vpoint cd.v0 p1
    if coneReject ext st cd vpM then (false, Function.update vpM cd.v0 p0)
    else aspectStage ext st cd p0 p1 (Function.update vpM cd.v0 p0)

/-- Legality predicate `is_collapse_legal` from the source (lines 290-477),
evaluating the constraints in order with fail-fast semantics.  The second
component is the vertex-position map as left behind by the call (the source
mutates `vpoint_` tentatively and restores it). -/
def isCollapseLegal (ext : Ext) (st : SimpState) (cd : CollapseData) :
    Bool × (V → Point) :=
  if selectionReject st cd then (false, st.vpoint)
  else if featureReject st cd then (false, st.vpoint)
  else if boundaryReject st cd then (false, st.vpoint)
  else if minIncidenceReject st cd then (false, st.vpoint)
  else if topoReject st cd then (false, st.vpoint)
  else if valenceReject st cd then (false, st.vpoint)
  else
    let p0 := st.vpoint cd.v0
    let p1 := st.vpoint cd.v1
    if edgeLengthReject ext st cd p1 then (false, st.vpoint)
    else shapeStage ext st cd p0 p1

/-- Priority function from the source (lines 481-487): the quadric of `v0`
plus the quadric of `v1`, evaluated at the position of `v1`. -/
def priority (st : SimpState) (cd : CollapseData) : ℚ :=
  let q := st.vquadric cd.v0
  let q' := Quadric.add q (st.vquadric cd.v1)
  Quadric.eval q' (st.vpoint cd.v1)

/-- HeapInterface from the source header (lines 103-126): the comparison
functions the heap uses, reading the external priority property. -/
structure HeapInterface where
  prio : V → ℚ
  pos : V → Int

/-- Heap comparison `less` from the source header (lines 112-115). -/
def HeapInterface.less (hi : HeapInterface) (a b : V) : Bool :=
  decide (hi.prio a < hi.prio b)

/-- Heap comparison `greater` from the source header (lines 116-119). -/
def HeapInterface.greater (hi : HeapInterface) (a b : V) : Bool :=
  decide (hi.prio a > hi.prio b)

/-- Per-vertex scheduling state of one `simplify` call: the priority and
chosen target halfedge properties (`v:prio`, `v:target`).  The heap position
property is an internal optimization of the queue collaborator and is not
modelled. -/
structure Sched where
  vpriority : V → ℚ
  vtarget : V → Option H

/-- Modelled from the spec: the pop-front selection of the indexed priority
queue collaborator (`pmp/algorithms/Heap.h`, not under `src/`): an element
with minimal priority (ties broken arbitrarily; this model keeps the first
minimum). -/
def popFront (prio : V → ℚ) (q : List V) : Option V :=
  q.foldl
    (fun best v =>
      match best with
      | none => some v
      | some b => if prio v < prio b then some v else best)
    none

/-- One iteration of the candidate scan of `enqueue_vertex` (source lines
251-263): build the descriptor for the next outgoing halfedge, run the
legality check (threading the position map it returns), and keep the legal
candidate with the lowest priority, ignoring the sentinel -1. -/
def btStep (ext : Ext) (acc : ℚ × Option H × SimpState) (h : H) :
    ℚ × Option H × SimpState :=
  let cd := mkCollapseData acc.2.2.mesh h
  let r := isCollapseLegal ext acc.2.2 cd
  let st' := {acc.2.2 with vpoint := r.2}
  if r.1 then
    let prio := priority st' cd
    if prio ≠ -1 ∧ prio < acc.1 then (prio, some h, st')
    else (acc.1, acc.2.1, st')
  else (acc.1, acc.2.1, st')

/-- The candidate scan of `enqueue_vertex` as the fold of `btStep` over the
outgoing halfedges, starting from the FLT_MAX sentinel and no target. -/
def bestTarget (ext : Ext) (st0 : SimpState) (hs : List H) :
    ℚ × Option H × SimpState :=
  hs.foldl (btStep ext) (fltMax, none, st0)

/-- Vertex scheduling `enqueue_vertex` from the source (lines 245-286): if a
legal target exists, record priority and target and place the vertex in the
queue (update if stored, insert otherwise); else remove it from the queue and
mark its priority with the sentinel -1 and its target invalid. -/
def enqueue_vertex (ext : Ext) (st : SimpState) (sc : Sched) (q : List V)
    (v : V) : SimpState × Sched × List V :=
  let r := bestTarget ext st (st.mesh.halfedgesOf v)
  match r.2.1 with
  | some h =>
    let sc' : Sched :=
      ⟨Function.update sc.vpriority v r.1, Function.update sc.vtarget v (some h)⟩
    let q' := if v ∈ q then q else v :: q
    (r.2.2, sc', q')
  | none =>
    let q' := if v ∈ q then q.erase v else q
    let sc' : Sched :=
      ⟨Function.update sc.vpriority v (-1), Function.update sc.vtarget v none⟩
    (r.2.2, sc', q')

/-- First section of `postprocess_collapse` (source line 494): merge the
removed vertex's quadric into the survivor's. -/
def ppQuadric (st : SimpState) (cd : CollapseData) : SimpState :=
  let vq := Function.update st.vquadric cd.v1
    (Quadric.add (st.vquadric cd.v1) (st.vquadric cd.v0))
  {st with vquadric := vq}

/-- Second section of `postprocess_collapse` (source lines 496-517): when
angular deviation is enabled, merge the recomputed normal of every face now
incident to `v1` into its cone, and additionally merge the two retired
faces' cones into the faces that replace them. -/
def ppCones (ext : Ext) (st : SimpState) (cd : CollapseData) : SimpState :=
  if st.normalDeviation ≠ 0 then
    let nc1 := (st.mesh.facesOf cd.v1).foldl
      (fun nc f =>
        Function.update nc f (ext.mergeN (nc f) (computeFaceNormal st.vpoint st.mesh f)))
      st.normalCone
    let nc2 :=
      if cd.vl.isSome then
        match st.mesh.faceOfH (cd.v1vl.getD 0) with
        | some f => Function.update nc1 f (ext.mergeC (nc1 f) (nc1 (cd.fl.getD 0)))
        | none => nc1
      else nc1
    let nc3 :=
      if cd.vr.isSome then
        match st.mesh.faceOfH (cd.vrv1.getD 0) with
        | some f => Function.update nc2 f (ext.mergeC (nc2 f) (nc2 (cd.fr.getD 0)))
        | none => nc2
      else nc2
    {st with normalCone := nc3}
  else st

/-- Third section of `postprocess_collapse` (source lines 519-571): when
Hausdorff checking is enabled, pool the sample points of the faces around
`v1`, of the two retired faces and the removed vertex's own position, and
reassign each pooled point to the nearest face around `v1` (first minimum
found, sentinel FLT_MAX). -/
def ppHausdorff (ext : Ext) (st : SimpState) (cd : CollapseData) : SimpState :=
  if st.hausdorffError ≠ 0 then
    let collect := (st.mesh.facesOf cd.v1).foldl
      (fun (acc : List Point × (F → List Point)) f =>
        (acc.1 ++ acc.2 f, Function.update acc.2 f []))
      (([] : List Point), st.facePoints)
    let step2 :=
      match cd.fl with
      | some f => (collect.1 ++ collect.2 f, Function.update collect.2 f [])
      | none => collect
    let step3 :=
      match cd.fr with
      | some f => (step2.1 ++ step2.2 f, Function.update step2.2 f [])
      | none => step2
    let pts := step3.1 ++ [st.vpoint cd.v0]
    let fpFinal := pts.foldl
      (fun fp p =>
        let best := (st.mesh.facesOf cd.v1).foldl
          (fun acc f =>
            let d := distanceFn ext st.vpoint st.mesh f p
            if d < acc.2 then (some f, d) else acc)
          ((none : Option F), fltMax)
        match best.1 with
        | some ff => Function.update fp ff (fp ff ++ [p])
        | none => fp)
      step3.2
    {st with facePoints := fpFinal}
  else st

/-- Postprocessing `postprocess_collapse` from the source (lines 491-572),
run on the post-collapse mesh: merge the removed vertex's quadric into the
survivor's; if angular deviation is enabled, merge recomputed normals (and
the retired faces' cones) into the cones around `v1`; if Hausdorff checking
is enabled, pool the sample points of the faces around `v1`, of the two
retired faces and the removed vertex's position, and reassign each to the
nearest face around `v1` (first minimum). -/
def postprocessCollapse (ext : Ext) (st : SimpState) (cd : CollapseData) :
    SimpState :=
  ppHausdorff ext (ppCones ext (ppQuadric st cd) cd) cd

/-- Engine initialization from the source (`initialize`, lines 75-164):
store the five bounds (converting the angular bound from degrees to radians),
detect the selection and feature markers by scanning, rebuild the quadrics
from the incident faces, and reset the normal cones and per-face sample-point
lists when the respective checks are enabled.  The source's check that the
feature properties exist before scanning is absorbed into the scan of this
model's total marker functions. -/
def initializeEngine (st : SimpState) (aspRatio edgeLen : ℚ) (maxVal : Nat)
    (normalDev hausdorffErr : ℚ) : SimpState :=
  if !st.mesh.isTriangle then st
  else
    let nd := normalDev / 180 * mPi
    { st with
      aspectRatio := aspRatio
      maxValence := maxVal
      edgeLength := edgeLen
      normalDeviation := nd
      hausdorffError := hausdorffErr
      hasSelection := st.mesh.vertexList.any st.vselected
      hasFeatures := st.mesh.vertexList.any st.vfeature
      vquadric := fun v =>
        if st.mesh.isIsolatedV v then Quadric.zero
        else (st.mesh.facesOf v).foldl
          (fun q f => Quadric.add q (Quadric.ofPlane (st.fnormal f) (st.vpoint v)))
          Quadric.zero
      normalCone :=
        if nd ≠ 0 then (fun f => NormalCone.ofNormal (st.fnormal f)) else st.normalCone
      facePoints := if hausdorffErr ≠ 0 then (fun _ => []) else st.facePoints
      initialized := true }

/-- Folding `enqueue_vertex` over a list of vertices (the queue seeding of
`simplify`, lines 196-200, and the one-ring update, lines 230-232). -/
def enqueueAll (ext : Ext) (acc : SimpState × Sched × List V) (vs : List V) :
    SimpState × Sched × List V :=
  vs.foldl (fun a v => enqueue_vertex ext a.1 a.2.1 a.2.2 v) acc

/-- The main pop/validate/collapse/repair loop of `simplify` (source lines
202-233), with the topological collapse passed in as the mesh collaborator's
operation `cfn`.  The C++ `while` loop terminates because every iteration
either commits a collapse (decreasing the live vertex count) or discards one
queue entry; the structural `fuel` argument is sized by the caller to
dominate that measure. -/
def collapseLoop (cfn : MeshTopo → H → MeshTopo) (ext : Ext) (n : Nat) :
    Nat → Nat → SimpState → Sched → List V → SimpState × Sched × List V
  | 0, _, st, sc, q => (st, sc, q)
  | fuel + 1, nv, st, sc, q =>
    if nv > n ∧ q ≠ [] then
      match popFront sc.vpriority q with
      | none => (st, sc, q)
      | some v =>
        let q1 := q.erase v
        match sc.vtarget v with
        | none => collapseLoop cfn ext n fuel nv st sc q1
        | some hh =>
          let cd := mkCollapseData st.mesh hh
          if st.mesh.isCollapseOkB hh then
            let oneRing := st.mesh.verticesOf cd.v0
            let st1 := {st with mesh := cfn st.mesh hh}
            let st2 := postprocessCollapse ext st1 cd
            let r := enqueueAll ext (st2, sc, q1) oneRing
            collapseLoop cfn ext n fuel (nv - 1) r.1 r.2.1 r.2.2
          else
            collapseLoop cfn ext n fuel nv st sc q1
    else (st, sc, q)

/-- The body of `simplify` after the triangle-mesh guard and the
initialization check (source lines 180-241): seed the queue with every
vertex, run the main loop, and finish with the collaborator's garbage
collection `gcFn`.  The transient scheduling properties are created and
discarded within this call, so only the resulting engine state is returned. -/
def simplifyMain (cfn : MeshTopo → H → MeshTopo) (gcFn : MeshTopo → MeshTopo)
    (ext : Ext) (st : SimpState) (n : Nat) : SimpState :=
  let nv := st.mesh.nVertices
  let sc0 : Sched := ⟨fun _ => 0, fun _ => none⟩
  let seeded := enqueueAll ext (st, sc0, []) st.mesh.vertexList
  let fuel := (nv + 1) * (nv + seeded.2.2.length + 1)
  let r := collapseLoop cfn ext n fuel nv seeded.1 seeded.2.1 seeded.2.2
  {r.1 with mesh := gcFn r.1.mesh}

/-- Driver `simplify` from the source (lines 168-241): refuse non-triangle
meshes with a usage error (second component `true`, modelling the diagnostic
printed to the caller) leaving the state untouched; otherwise initialize with
all-default bounds if never initialized, and run the main loop. -/
def simplify (cfn : MeshTopo → H → MeshTopo) (gcFn : MeshTopo → MeshTopo)
    (ext : Ext) (st : SimpState) (n : Nat) : SimpState × Bool :=
  if !st.mesh.isTriangle then (st, true)
  else
    let st1 := if st.initialized then st else initializeEngine st 0 0 0 0 0
    (simplifyMain cfn gcFn ext st1 n, false)

/-! ### Position-restoration lemmas for the legality predicate -/

theorem hausdorffStage_snd (ext : Ext) (st : SimpState) (cd : CollapseData)
    (p1 : Point) (vp : V → Point) (hvp : vp = st.vpoint) :
    (hausdorffStage ext st cd (st.vpoint cd.v0) p1 vp).2 = st.vpoint := by
  subst hvp
  unfold hausdorffStage
  dsimp only
  split
  · split <;>
      simp [Function.update_idem, Function.update_eq_self]
  · rfl

theorem aspectStage_snd (ext : Ext) (st : SimpState) (cd : CollapseData)
    (p1 : Point) (vp : V → Point) (hvp : vp = st.vpoint) :
    (aspectStage ext st cd (st.vpoint cd.v0) p1 vp).2 = st.vpoint := by
  subst hvp
  unfold aspectStage
  dsimp only
  split
  · have hO : Function.update st.vpoint cd.v0 (st.vpoint cd.v0) = st.vpoint :=
      Function.update_eq_self cd.v0 st.vpoint
    split
    · split
      · simp [hO]
      · simp [hO]
    · split
      · rw [hO]
        exact hausdorffStage_snd ext st cd p1 _ rfl
      · exact hausdorffStage_snd ext st cd p1 _ rfl
  · exact hausdorffStage_snd ext st cd p1 _ rfl

theorem shapeStage_snd (ext : Ext) (st : SimpState) (cd : CollapseData)
    (p1 : Point) :
    (shapeStage ext st cd (st.vpoint cd.v0) p1).2 = st.vpoint := by
  unfold shapeStage
  dsimp only
  have hres : Function.update (Function.update st.vpoint cd.v0 p1) cd.v0
      (st.vpoint cd.v0) = st.vpoint := by
    rw [Function.update_idem]
    exact Function.update_eq_self cd.v0 st.vpoint
  split
  · split
    · exact hres
    · rw [hres]
      exact aspectStage_snd ext st cd p1 _ rfl
  · split
    · exact hres
    · rw [hres]
      exact aspectStage_snd ext st cd p1 _ rfl

theorem isCollapseLegal_snd (ext : Ext) (st : SimpState) (cd : CollapseData) :
    (isCollapseLegal ext st cd).2 = st.vpoint := by
  unfold isCollapseLegal
  dsimp only
  split
  · rfl
  split
  · rfl
  split
  · rfl
  split
  · rfl
  split
  · rfl
  split
  · rfl
  split
  · rfl
  · exact shapeStage_snd ext st cd (st.vpoint cd.v1)

/-- Claim C7: for every candidate descriptor and every configuration of
bounds, `is_collapse_legal` returns with the vertex-position array exactly as
it was on entry — the tentative move of `v0` is undone on every exit path,
whatever the verdict.  (The embedding's return type carries only the verdict
and the position map: the source function performs no topological mutation,
which the embedding reflects structurally.) -/
theorem claim_C7_positions_restored :
    ∀ (ext : Ext) (st : SimpState) (cd : CollapseData),
      (isCollapseLegal ext st cd).2 = st.vpoint :=
  fun ext st cd => isCollapseLegal_snd ext st cd

/-! ### Priority and queue ranking (claim C1) -/

theorem popFront_go (prio : V → ℚ) :
    ∀ (q : List V) (b : V),
      ∃ v, q.foldl
          (fun best w =>
            match best with
            | none => some w
            | some c => if prio w < prio c then some w else best)
          (some b) = some v
        ∧ (v = b ∨ v ∈ q) ∧ prio v ≤ prio b ∧ ∀ w ∈ q, prio v ≤ prio w := by
  intro q
  induction q with
  | nil => exact fun b => ⟨b, rfl, Or.inl rfl, le_refl _, by simp⟩
  | cons a q ih =>
    intro b
    by_cases hab : prio a < prio b
    · obtain ⟨v, hfold, hmem, hle, hall⟩ := ih a
      refine ⟨v, ?_, ?_, le_of_lt (lt_of_le_of_lt hle hab), ?_⟩
      · simpa [List.foldl_cons, if_pos hab] using hfold
      · rcases hmem with h | h
        · exact Or.inr (by simp [h])
        · exact Or.inr (by simp [h])
      · intro w hw
        rcases List.mem_cons.mp hw with h | h
        · exact h ▸ hle
        · exact hall w h
    · obtain ⟨v, hfold, hmem, hle, hall⟩ := ih b
      refine ⟨v, ?_, ?_, hle, ?_⟩
      · simpa [List.foldl_cons, if_neg hab] using hfold
      · rcases hmem with h | h
        · exact Or.inl h
        · exact Or.inr (by simp [h])
      · intro w hw
        rcases List.mem_cons.mp hw with h | h
        · exact h ▸ le_trans hle (le_of_not_lt hab)
        · exact hall w h

theorem popFront_spec (prio : V → ℚ) (q : List V) (v : V)
    (h : popFront prio q = some v) :
    v ∈ q ∧ ∀ w ∈ q, prio v ≤ prio w := by
  cases q with
  | nil => simp [popFront] at h
  | cons a q =>
    obtain ⟨u, hfold, hmem, hle, hall⟩ := popFront_go prio q a
    have : popFront prio (a :: q) = some u := by
      simpa [popFront, List.foldl_cons] using hfold
    rw [this] at h
    injection h with h
    subst h
    constructor
    · rcases hmem with h | h
      · simp [h]
      · simp [h]
    · intro w hw
      rcases List.mem_cons.mp hw with h | h
      · exact h ▸ hle
      · exact hall w h

/-- Claim C1: the priority of a collapse candidate equals the sum of the
quadrics stored at `v0` and `v1` evaluated at the current position of `v1`
(both as the merged quadric evaluated there and, by linearity of quadric
evaluation in the coefficients, as the sum of the two individual errors);
and this per-vertex priority value is the sole key by which the queue ranks
candidates: the heap's comparison consults only the priority property, and
the queue model pops an entry of minimal priority (lower first). -/
theorem claim_C1_priority_and_ranking :
    (∀ (st : SimpState) (cd : CollapseData),
        priority st cd
            = Quadric.eval (Quadric.add (st.vquadric cd.v0) (st.vquadric cd.v1))
                (st.vpoint cd.v1)
          ∧ priority st cd
            = Quadric.eval (st.vquadric cd.v0) (st.vpoint cd.v1)
              + Quadric.eval (st.vquadric cd.v1) (st.vpoint cd.v1))
      ∧ (∀ (hi : HeapInterface) (a b : V),
          hi.less a b = decide (hi.prio a < hi.prio b))
      ∧ (∀ (prio : V → ℚ) (q : List V) (v : V),
          popFront prio q = some v → v ∈ q ∧ ∀ w ∈ q, prio v ≤ prio w) := by
  refine ⟨fun st cd => ⟨rfl, ?_⟩, fun hi a b => rfl, popFront_spec⟩
  unfold priority Quadric.eval Quadric.add
  ring

/-! ### Valence bound (claim C4) -/

/-- Claim C4: with a maximum valence `M > 0` configured, the valence step of
`is_collapse_legal` rejects exactly when the post-collapse valence of the
surviving vertex — `valence(v0) + valence(v1) - 1`, minus one more for each
of the left and right faces that exists — exceeds `M`, unless that value is
strictly below the larger of the two pre-collapse valences, in which case the
step passes even though the bound is exceeded.  The valence hypotheses keep
the natural-number subtraction in the meaningful (non-underflowing) domain of
the unsigned C++ arithmetic. -/
theorem claim_C4_valence_bound (st : SimpState) (cd : CollapseData)
    (hM : 0 < st.maxValence)
    (h0 : 2 ≤ st.mesh.valence cd.v0) (h1 : 2 ≤ st.mesh.valence cd.v1) :
    valenceReject st cd = true ↔
      (st.mesh.valence cd.v0 + st.mesh.valence cd.v1 - 1
          - (if cd.fl.isSome then 1 else 0) - (if cd.fr.isSome then 1 else 0)
            > st.maxValence
        ∧ ¬(st.mesh.valence cd.v0 + st.mesh.valence cd.v1 - 1
          - (if cd.fl.isSome then 1 else 0) - (if cd.fr.isSome then 1 else 0)
              < max (st.mesh.valence cd.v0) (st.mesh.valence cd.v1))) := by
  have hval : postCollapseValence st.mesh cd
      = st.mesh.valence cd.v0 + st.mesh.valence cd.v1 - 1
          - (if cd.fl.isSome then 1 else 0) - (if cd.fr.isSome then 1 else 0) := by
    unfold postCollapseValence
    cases hfl : cd.fl.isSome <;> cases hfr : cd.fr.isSome <;> simp [hfl, hfr]
  unfold valenceReject
  rw [if_pos hM, hval]
  simp [Bool.and_eq_true, decide_eq_true_eq]

theorem Vec3.zero_def : (0 : Vec3) = ⟨0, 0, 0⟩ := rfl

theorem Vec3.sub_def (a b : Vec3) : a - b = ⟨a.x - b.x, a.y - b.y, a.z - b.z⟩ := rfl

theorem Vec3.x_zero : (0 : Vec3).x = 0 := rfl

theorem Vec3.y_zero : (0 : Vec3).y = 0 := rfl

theorem Vec3.z_zero : (0 : Vec3).z = 0 := rfl

/-- Sample collaborator record used by concrete witnesses and
counterexamples.  Its norm is the squared Euclidean norm, which agrees with
the Euclidean norm on every vector the concrete inputs produce (vectors of
norm 0 or 1), so the concrete verdicts match the real collaborator's. -/
def extSample : Ext :=
  { norm := sqrnorm
    distPT := fun _ _ _ _ => 0
    mergeN := fun nc _ => nc
    mergeC := fun nc _ => nc }

/-- Concrete mesh for the claim C4 witness: endpoint valences 7 and 3. -/
def meshW4 : MeshTopo :=
  { vertexList := [0, 1]
    isTriangle := true
    halfedgesOf := fun _ => []
    facesOf := fun _ => []
    verticesOf := fun _ => []
    faceVerts := fun _ => []
    toVertex := fun _ => 0
    oppositeH := fun h => h
    nextH := id
    prevH := id
    faceOfH := fun _ => none
    edgeOfH := id
    valence := fun v => if v = 0 then 7 else 3
    isBoundaryV := fun _ => false
    isIsolatedV := fun _ => false
    cwRotated := id
    isCollapseOkB := fun _ => true }

/-- Concrete engine state for the claim C4 witness (maximum valence 6). -/
def stW4 : SimpState :=
  { mesh := meshW4
    vpoint := fun _ => 0
    vquadric := fun _ => Quadric.zero
    fnormal := fun _ => 0
    normalCone := fun _ => NormalCone.ofNormal 0
    facePoints := fun _ => []
    vselected := fun _ => true
    vfeature := fun _ => false
    efeature := fun _ => false
    hasSelection := false
    hasFeatures := false
    aspectRatio := 0
    edgeLength := 0
    normalDeviation := 0
    hausdorffError := 0
    maxValence := 6
    initialized := true }

/-- Concrete collapse descriptor for the claim C4 witness: both wing faces
exist, so the post-collapse valence is 7 + 3 - 1 - 2 = 7 > 6. -/
def cdW4 : CollapseData :=
  ⟨0, 1, 0, 1, some 0, some 1, some 2, some 3, some 2, some 3, some 4, some 5⟩

/-- Witness for claim C4 at a concrete state: the hypotheses hold and the
valence step indeed rejects (7 exceeds the bound 6 and does not relieve the
worse pre-collapse valence 7). -/
theorem claim_C4_witness :
    0 < stW4.maxValence ∧ 2 ≤ stW4.mesh.valence cdW4.v0
      ∧ 2 ≤ stW4.mesh.valence cdW4.v1
      ∧ (valenceReject stW4 cdW4 = true ↔
          (stW4.mesh.valence cdW4.v0 + stW4.mesh.valence cdW4.v1 - 1
              - (if cdW4.fl.isSome then 1 else 0)
              - (if cdW4.fr.isSome then 1 else 0) > stW4.maxValence
            ∧ ¬(stW4.mesh.valence cdW4.v0 + stW4.mesh.valence cdW4.v1 - 1
              - (if cdW4.fl.isSome then 1 else 0)
              - (if cdW4.fr.isSome then 1 else 0)
                < max (stW4.mesh.valence cdW4.v0) (stW4.mesh.valence cdW4.v1)))) :=
  ⟨by decide, by decide, by decide,
    claim_C4_valence_bound stW4 cdW4 (by decide) (by decide) (by decide)⟩

/-! ### Aspect ratio of a face (claim C10) -/

theorem cross_smul_right (a : Vec3) (t : ℚ) : cross a (Vec3.smul t a) = 0 := by
  show cross a (Vec3.smul t a) = Vec3.zero
  simp only [cross, Vec3.smul, Vec3.zero, Vec3.mk.injEq]
  refine ⟨by ring, by ring, by ring⟩

theorem cross_smul_left (a : Vec3) (t : ℚ) : cross (Vec3.smul t a) a = 0 := by
  show cross (Vec3.smul t a) a = Vec3.zero
  simp only [cross, Vec3.smul, Vec3.zero, Vec3.mk.injEq]
  refine ⟨by ring, by ring, by ring⟩

/-- Claim C10: `aspect_ratio(f)` returns the maximum squared edge length of
the face divided by the collaborator norm of the cross product of two of its
edge vectors, with no guard against a zero denominator; and whenever the
three vertices are collinear (either edge vector a multiple of the other),
that denominator is the norm of the zero vector, i.e. zero — the division is
by zero, so the value is meaningful only for non-degenerate faces. -/
theorem claim_C10_aspect_ratio (ext : Ext) (vp : V → Point) (m : MeshTopo)
    (f : F) (hn0 : ext.norm 0 = 0) :
    aspect_ratio ext vp m f =
        max (sqrnorm (vp ((m.faceVerts f).getD 0 0) - vp ((m.faceVerts f).getD 1 0)))
          (max (sqrnorm (vp ((m.faceVerts f).getD 1 0) - vp ((m.faceVerts f).getD 2 0)))
            (sqrnorm (vp ((m.faceVerts f).getD 2 0) - vp ((m.faceVerts f).getD 0 0))))
        / ext.norm (cross (vp ((m.faceVerts f).getD 0 0) - vp ((m.faceVerts f).getD 1 0))
            (vp ((m.faceVerts f).getD 1 0) - vp ((m.faceVerts f).getD 2 0)))
      ∧ (∀ t : ℚ,
          vp ((m.faceVerts f).getD 1 0) - vp ((m.faceVerts f).getD 2 0)
              = Vec3.smul t (vp ((m.faceVerts f).getD 0 0) - vp ((m.faceVerts f).getD 1 0)) →
          ext.norm (cross (vp ((m.faceVerts f).getD 0 0) - vp ((m.faceVerts f).getD 1 0))
              (vp ((m.faceVerts f).getD 1 0) - vp ((m.faceVerts f).getD 2 0))) = 0)
      ∧ (∀ t : ℚ,
          vp ((m.faceVerts f).getD 0 0) - vp ((m.faceVerts f).getD 1 0)
              = Vec3.smul t (vp ((m.faceVerts f).getD 1 0) - vp ((m.faceVerts f).getD 2 0)) →
          ext.norm (cross (vp ((m.faceVerts f).getD 0 0) - vp ((m.faceVerts f).getD 1 0))
              (vp ((m.faceVerts f).getD 1 0) - vp ((m.faceVerts f).getD 2 0))) = 0) := by
  refine ⟨rfl, ?_, ?_⟩
  · intro t ht
    rw [ht, cross_smul_right, hn0]
  · intro t ht
    rw [ht, cross_smul_left, hn0]

/-- Concrete mesh for the claim C10 witness: one face with vertices 0, 1, 2. -/
def meshW10 : MeshTopo :=
  { meshW4 with
    vertexList := [0, 1, 2]
    facesOf := fun _ => [0]
    faceVerts := fun _ => [0, 1, 2] }

/-- Concrete (collinear) positions for the claim C10 witness. -/
def vpW10 : V → Point := fun v => ⟨(v : ℚ), 0, 0⟩

/-- Witness for claim C10 at a concrete degenerate face: the collaborator
norm sends the zero vector to zero, and the theorem's conclusion holds at
that instance. -/
theorem claim_C10_witness :
    extSample.norm 0 = 0
      ∧ (aspect_ratio extSample vpW10 meshW10 0 =
            max (sqrnorm (vpW10 ((meshW10.faceVerts 0).getD 0 0) - vpW10 ((meshW10.faceVerts 0).getD 1 0)))
              (max (sqrnorm (vpW10 ((meshW10.faceVerts 0).getD 1 0) - vpW10 ((meshW10.faceVerts 0).getD 2 0)))
                (sqrnorm (vpW10 ((meshW10.faceVerts 0).getD 2 0) - vpW10 ((meshW10.faceVerts 0).getD 0 0))))
            / extSample.norm (cross (vpW10 ((meshW10.faceVerts 0).getD 0 0) - vpW10 ((meshW10.faceVerts 0).getD 1 0))
                (vpW10 ((meshW10.faceVerts 0).getD 1 0) - vpW10 ((meshW10.faceVerts 0).getD 2 0)))
          ∧ (∀ t : ℚ,
              vpW10 ((meshW10.faceVerts 0).getD 1 0) - vpW10 ((meshW10.faceVerts 0).getD 2 0)
                  = Vec3.smul t (vpW10 ((meshW10.faceVerts 0).getD 0 0) - vpW10 ((meshW10.faceVerts 0).getD 1 0)) →
              extSample.norm (cross (vpW10 ((meshW10.faceVerts 0).getD 0 0) - vpW10 ((meshW10.faceVerts 0).getD 1 0))
                  (vpW10 ((meshW10.faceVerts 0).getD 1 0) - vpW10 ((meshW10.faceVerts 0).getD 2 0))) = 0)
          ∧ (∀ t : ℚ,
              vpW10 ((meshW10.faceVerts 0).getD 0 0) - vpW10 ((meshW10.faceVerts 0).getD 1 0)
                  = Vec3.smul t (vpW10 ((meshW10.faceVerts 0).getD 1 0) - vpW10 ((meshW10.faceVerts 0).getD 2 0)) →
              extSample.norm (cross (vpW10 ((meshW10.faceVerts 0).getD 0 0) - vpW10 ((meshW10.faceVerts 0).getD 1 0))
                  (vpW10 ((meshW10.faceVerts 0).getD 1 0) - vpW10 ((meshW10.faceVerts 0).getD 2 0))) = 0)) :=
  ⟨by norm_num [extSample, sqrnorm, dot, Vec3.x_zero, Vec3.y_zero, Vec3.z_zero],
    claim_C10_aspect_ratio extSample vpW10 meshW10 0
      (by norm_num [extSample, sqrnorm, dot, Vec3.x_zero, Vec3.y_zero, Vec3.z_zero])⟩

/-! ### Usage error on non-triangle meshes (claim C2) -/

/-- Claim C2: for every mesh that is not a pure triangle mesh and every
target count, `simplify` reports a usage error (`true` flag, modelling the
diagnostic sent to the caller without throwing) and returns with the engine
state — mesh, positions, everything — exactly as it was.  The statement
quantifies over arbitrary collapse and garbage-collection collaborators, so
in particular neither is ever invoked on the error path. -/
theorem claim_C2_usage_error (cfn : MeshTopo → H → MeshTopo)
    (gcFn : MeshTopo → MeshTopo) (ext : Ext) (st : SimpState) (n : Nat)
    (h : st.mesh.isTriangle = false) :
    simplify cfn gcFn ext st n = (st, true) := by
  unfold simplify
  simp [h]

/-- Concrete non-triangle mesh for the claim C2 witness. -/
def meshW2 : MeshTopo := { meshW4 with isTriangle := false }

/-- Concrete engine state on a non-triangle mesh for the claim C2 witness. -/
def stW2 : SimpState := { stW4 with mesh := meshW2 }

/-- Witness for claim C2: on a concrete non-triangle mesh, `simplify`
reports the usage error and leaves the state untouched. -/
theorem claim_C2_witness :
    stW2.mesh.isTriangle = false
      ∧ simplify (fun m _ => m) (fun m => m) extSample stW2 0 = (stW2, true) :=
  ⟨rfl, claim_C2_usage_error (fun m _ => m) (fun m => m) extSample stW2 0 rfl⟩

/-! ### No-op when the target is already reached (claim C3) -/

theorem initializeEngine_mesh (st : SimpState) (a e : ℚ) (v : Nat)
    (nd he : ℚ) : (initializeEngine st a e v nd he).mesh = st.mesh := by
  unfold initializeEngine
  split <;> rfl

theorem initializeEngine_vpoint (st : SimpState) (a e : ℚ) (v : Nat)
    (nd he : ℚ) : (initializeEngine st a e v nd he).vpoint = st.vpoint := by
  unfold initializeEngine
  split <;> rfl

theorem btStep_state (ext : Ext) (acc : ℚ × Option H × SimpState) (h : H) :
    (btStep ext acc h).2.2 = acc.2.2 := by
  unfold btStep
  dsimp only
  rw [isCollapseLegal_snd]
  split
  · split <;> rfl
  · rfl

theorem btFold_state (ext : Ext) :
    ∀ (hs : List H) (acc : ℚ × Option H × SimpState),
      (hs.foldl (btStep ext) acc).2.2 = acc.2.2 := by
  intro hs
  induction hs with
  | nil => intro acc; rfl
  | cons h t ih => intro acc; rw [List.foldl_cons, ih, btStep_state]

theorem bestTarget_state (ext : Ext) (st : SimpState) (hs : List H) :
    (bestTarget ext st hs).2.2 = st := by
  unfold bestTarget
  exact btFold_state ext hs (fltMax, none, st)

theorem enqueue_vertex_state (ext : Ext) (st : SimpState) (sc : Sched)
    (q : List V) (v : V) : (enqueue_vertex ext st sc q v).1 = st := by
  unfold enqueue_vertex
  dsimp only
  cases hm : (bestTarget ext st (st.mesh.halfedgesOf v)).2.1 <;>
    simp [hm, bestTarget_state]

theorem enqueueAll_state (ext : Ext) (vs : List V) :
    ∀ (acc : SimpState × Sched × List V), (enqueueAll ext acc vs).1 = acc.1 := by
  induction vs with
  | nil => intro acc; rfl
  | cons v t ih =>
    intro acc
    unfold enqueueAll at ih ⊢
    rw [List.foldl_cons, ih, enqueue_vertex_state]

theorem collapseLoop_target_reached (cfn : MeshTopo → H → MeshTopo)
    (ext : Ext) (n fuel nv : Nat) (st : SimpState) (sc : Sched) (q : List V)
    (h : ¬ n < nv) :
    collapseLoop cfn ext n fuel nv st sc q = (st, sc, q) := by
  cases fuel with
  | zero => rfl
  | succ f =>
    simp only [collapseLoop]
    rw [if_neg (fun hc : n < nv ∧ q ≠ [] => h hc.1)]

theorem simplifyMain_target_reached (cfn : MeshTopo → H → MeshTopo)
    (gcFn : MeshTopo → MeshTopo) (ext : Ext) (st : SimpState) (n : Nat)
    (hn : st.mesh.nVertices ≤ n) (hgc : gcFn st.mesh = st.mesh) :
    simplifyMain cfn gcFn ext st n = st := by
  unfold simplifyMain
  dsimp only
  rw [collapseLoop_target_reached cfn ext n _ _ _ _ _ (by omega)]
  rw [enqueueAll_state ext st.mesh.vertexList (st, ⟨fun _ => 0, fun _ => none⟩, [])]
  rw [hgc]

/-- Claim C3: on a triangle mesh with the target at or above the current
live vertex count, `simplify` performs zero collapses (the statement holds
for every collapse collaborator) and leaves the mesh and the vertex
positions unchanged; the final garbage collection is applied to a mesh with
nothing removed, where the collaborator compacts nothing. -/
theorem claim_C3_noop_when_target_reached (cfn : MeshTopo → H → MeshTopo)
    (gcFn : MeshTopo → MeshTopo) (ext : Ext) (st : SimpState) (n : Nat)
    (htri : st.mesh.isTriangle = true)
    (hn : st.mesh.nVertices ≤ n)
    (hgc : gcFn st.mesh = st.mesh) :
    (simplify cfn gcFn ext st n).1.mesh = st.mesh
      ∧ (simplify cfn gcFn ext st n).1.vpoint = st.vpoint := by
  unfold simplify
  simp only [htri, Bool.not_true, Bool.false_eq_true, if_false]
  by_cases hi : st.initialized = true
  · rw [if_pos hi]
    rw [simplifyMain_target_reached cfn gcFn ext st n hn hgc]
    exact ⟨rfl, rfl⟩
  · rw [if_neg hi]
    have hmesh := initializeEngine_mesh st 0 0 0 0 0
    have hvp := initializeEngine_vpoint st 0 0 0 0 0
    rw [simplifyMain_target_reached cfn gcFn ext _ n
      (by rw [MeshTopo.nVertices, hmesh]; exact hn) (by rw [hmesh]; exact hgc)]
    exact ⟨hmesh, hvp⟩

/-- Concrete triangle mesh (one face) for the claim C3 witness. -/
def meshW3 : MeshTopo := { meshW10 with isTriangle := true }

/-- Concrete initialized engine state for the claim C3 witness. -/
def stW3 : SimpState := { stW4 with mesh := meshW3 }

/-- Witness for claim C3: simplifying a concrete 3-vertex triangle mesh to a
target of 3 vertices changes neither the mesh nor the positions. -/
theorem claim_C3_witness :
    stW3.mesh.isTriangle = true ∧ stW3.mesh.nVertices ≤ 3
      ∧ (fun m => m) stW3.mesh = stW3.mesh
      ∧ ((simplify (fun m _ => m) (fun m => m) extSample stW3 3).1.mesh = stW3.mesh
        ∧ (simplify (fun m _ => m) (fun m => m) extSample stW3 3).1.vpoint = stW3.vpoint) :=
  ⟨rfl, by decide, rfl,
    claim_C3_noop_when_target_reached (fun m _ => m) (fun m => m) extSample stW3 3
      rfl (by decide) rfl⟩

/-! ### Lazy initialization with default bounds (claim C9) -/

theorem legal_zero_bounds (ext : Ext) (st : SimpState) (cd : CollapseData)
    (hv : st.maxValence = 0) (he : st.edgeLength = 0)
    (hnd : st.normalDeviation = 0) (ha : st.aspectRatio = 0)
    (hh : st.hausdorffError = 0) :
    (isCollapseLegal ext st cd).1
      = (!selectionReject st cd && !featureReject st cd && !boundaryReject st cd
          && !minIncidenceReject st cd && !topoReject st cd
          && !flipReject st cd (Function.update st.vpoint cd.v0 (st.vpoint cd.v1))) := by
  have hvr : valenceReject st cd = false := by
    unfold valenceReject
    rw [hv]
    rfl
  have her : edgeLengthReject ext st cd (st.vpoint cd.v1) = false := by
    unfold edgeLengthReject
    rw [he]
    simp
  unfold isCollapseLegal shapeStage aspectStage hausdorffStage
  dsimp only
  rw [hvr, her]
  cases hs : selectionReject st cd <;>
    cases hf : featureReject st cd <;>
      cases hb : boundaryReject st cd <;>
        cases hm2 : minIncidenceReject st cd <;>
          cases ht2 : topoReject st cd <;>
            cases hfl : flipReject st cd
                (Function.update st.vpoint cd.v0 (st.vpoint cd.v1)) <;>
              simp [hs, hf, hb, hm2, ht2, hfl, hnd, ha, hh]

/-- Claim C9: calling `simplify` on a triangle mesh with the engine never
initialized does not fail: it first runs `initialize` with every bound at its
default disabled value (aspect ratio 0, edge length 0, max valence 0, normal
deviation 0, Hausdorff error 0) and then proceeds normally (no usage error);
and with all bounds disabled the legality verdict reduces to exactly the
selection, feature, boundary, minimum-incidence, topological and normal-flip
checks. -/
theorem claim_C9_lazy_initialization (cfn : MeshTopo → H → MeshTopo)
    (gcFn : MeshTopo → MeshTopo) (ext : Ext) (st : SimpState) (n : Nat)
    (htri : st.mesh.isTriangle = true) (hini : st.initialized = false) :
    simplify cfn gcFn ext st n
        = (simplifyMain cfn gcFn ext (initializeEngine st 0 0 0 0 0) n, false)
      ∧ (initializeEngine st 0 0 0 0 0).aspectRatio = 0
      ∧ (initializeEngine st 0 0 0 0 0).edgeLength = 0
      ∧ (initializeEngine st 0 0 0 0 0).maxValence = 0
      ∧ (initializeEngine st 0 0 0 0 0).normalDeviation = 0
      ∧ (initializeEngine st 0 0 0 0 0).hausdorffError = 0
      ∧ (∀ (ext2 : Ext) (cd : CollapseData),
          (isCollapseLegal ext2 (initializeEngine st 0 0 0 0 0) cd).1
            = (!selectionReject (initializeEngine st 0 0 0 0 0) cd
                && !featureReject (initializeEngine st 0 0 0 0 0) cd
                && !boundaryReject (initializeEngine st 0 0 0 0 0) cd
                && !minIncidenceReject (initializeEngine st 0 0 0 0 0) cd
                && !topoReject (initializeEngine st 0 0 0 0 0) cd
                && !flipReject (initializeEngine st 0 0 0 0 0) cd
                    (Function.update (initializeEngine st 0 0 0 0 0).vpoint cd.v0
                      ((initializeEngine st 0 0 0 0 0).vpoint cd.v1)))) := by
  have hnd : (initializeEngine st 0 0 0 0 0).normalDeviation = 0 := by
    simp only [initializeEngine, htri, Bool.not_true, Bool.false_eq_true, if_false]
    norm_num
  refine ⟨?_, ?_, ?_, ?_, hnd, ?_, ?_⟩
  · unfold simplify
    simp only [htri, Bool.not_true, Bool.false_eq_true, if_false, hini]
  · simp only [initializeEngine, htri, Bool.not_true, Bool.false_eq_true, if_false]
  · simp only [initializeEngine, htri, Bool.not_true, Bool.false_eq_true, if_false]
  · simp only [initializeEngine, htri, Bool.not_true, Bool.false_eq_true, if_false]
  · simp only [initializeEngine, htri, Bool.not_true, Bool.false_eq_true, if_false]
  · intro ext2 cd
    refine legal_zero_bounds ext2 _ cd ?_ ?_ hnd ?_ ?_ <;>
      simp only [initializeEngine, htri, Bool.not_true, Bool.false_eq_true, if_false]

/-- Concrete uninitialized engine state on a triangle mesh for the claim C9
witness. -/
def stW9 : SimpState := { stW3 with initialized := false }

/-- Witness for claim C9 at a concrete uninitialized engine. -/
theorem claim_C9_witness :
    stW9.mesh.isTriangle = true ∧ stW9.initialized = false
      ∧ (simplify (fun m _ => m) (fun m => m) extSample stW9 0
            = (simplifyMain (fun m _ => m) (fun m => m) extSample
                (initializeEngine stW9 0 0 0 0 0) 0, false)
          ∧ (initializeEngine stW9 0 0 0 0 0).aspectRatio = 0
          ∧ (initializeEngine stW9 0 0 0 0 0).edgeLength = 0
          ∧ (initializeEngine stW9 0 0 0 0 0).maxValence = 0
          ∧ (initializeEngine stW9 0 0 0 0 0).normalDeviation = 0
          ∧ (initializeEngine stW9 0 0 0 0 0).hausdorffError = 0
          ∧ (∀ (ext2 : Ext) (cd : CollapseData),
              (isCollapseLegal ext2 (initializeEngine stW9 0 0 0 0 0) cd).1
                = (!selectionReject (initializeEngine stW9 0 0 0 0 0) cd
                    && !featureReject (initializeEngine stW9 0 0 0 0 0) cd
                    && !boundaryReject (initializeEngine stW9 0 0 0 0 0) cd
                    && !minIncidenceReject (initializeEngine stW9 0 0 0 0 0) cd
                    && !topoReject (initializeEngine stW9 0 0 0 0 0) cd
                    && !flipReject (initializeEngine stW9 0 0 0 0 0) cd
                        (Function.update (initializeEngine stW9 0 0 0 0 0).vpoint cd.v0
                          ((initializeEngine stW9 0 0 0 0 0).vpoint cd.v1))))) :=
  ⟨rfl, rfl,
    claim_C9_lazy_initialization (fun m _ => m) (fun m => m) extSample stW9 0 rfl rfl⟩

/-! ### Aspect-ratio check (claim C5) -/

/-- The worst aspect ratio over the faces incident to `v0` other than the
two collapsed faces, at the positions `vp` — the quantity the aspect-ratio
step of `is_collapse_legal` accumulates per map. -/
def worstAspect (ext : Ext) (vp : V → Point) (m : MeshTopo)
    (cd : CollapseData) : ℚ :=
  ((m.facesOf cd.v0).filter
    (fun f => decide (some f ≠ cd.fl) && decide (some f ≠ cd.fr))).foldl
    (fun a f => max a (aspect_ratio ext vp m f)) 0

theorem foldl_pair_filter {α : Type} (p : α → Bool) (g1 g2 : ℚ → α → ℚ) :
    ∀ (l : List α) (a b : ℚ),
      l.foldl (fun ar x => if p x then (g1 ar.1 x, g2 ar.2 x) else ar) (a, b)
        = ((l.filter p).foldl g1 a, (l.filter p).foldl g2 b) := by
  intro l
  induction l with
  | nil => intro a b; rfl
  | cons x t ih =>
    intro a b
    cases hp : p x <;> simp [List.foldl_cons, List.filter_cons, hp, ih]

theorem arFold_eq (ext : Ext) (m : MeshTopo) (cd : CollapseData)
    (vpM vpO : V → Point) :
    arFold ext m cd vpM vpO
      = (worstAspect ext vpO m cd, worstAspect ext vpM m cd) := by
  unfold arFold worstAspect
  exact foldl_pair_filter
    (fun f => decide (some f ≠ cd.fl) && decide (some f ≠ cd.fr))
    (fun a f => max a (aspect_ratio ext vpO m f))
    (fun a f => max a (aspect_ratio ext vpM m f))
    (m.facesOf cd.v0) 0 0

/-- Claim C5, amended: with an aspect-ratio bound configured, the
aspect-ratio step of `is_collapse_legal` — with the worst ratios taken over
the faces incident to `v0` other than the two collapsed faces, after and
before the tentative move of `v0` to `v1`'s position — rejects exactly when
the post-move worst ratio exceeds the bound AND strictly exceeds the
pre-move worst ratio; a candidate whose post-move worst ratio equals the
pre-move one passes this step even when above the bound. -/
theorem claim_C5_aspect_ratio_check (ext : Ext) (st : SimpState)
    (cd : CollapseData) :
    arCheckRejects ext st cd
        (Function.update st.vpoint cd.v0 (st.vpoint cd.v1))
        (Function.update st.vpoint cd.v0 (st.vpoint cd.v0)) = true
      ↔ (worstAspect ext (Function.update st.vpoint cd.v0 (st.vpoint cd.v1))
            st.mesh cd > st.aspectRatio
          ∧ worstAspect ext (Function.update st.vpoint cd.v0 (st.vpoint cd.v1))
              st.mesh cd
            > worstAspect ext (Function.update st.vpoint cd.v0 (st.vpoint cd.v0))
                st.mesh cd) := by
  unfold arCheckRejects
  rw [arFold_eq]
  simp [Bool.and_eq_true, decide_eq_true_eq]

/-- Concrete mesh for the claim C5 and C6 counterexamples: a single face
with vertices 0, 1, 2, all incident to vertex 0; the double clockwise
rotation moves halfedges so the minimum-incidence test passes. -/
def meshW5 : MeshTopo :=
  { vertexList := [0, 1, 2, 3]
    isTriangle := true
    halfedgesOf := fun _ => []
    facesOf := fun v => if v = 0 then [0] else []
    verticesOf := fun _ => []
    faceVerts := fun _ => [0, 1, 2]
    toVertex := fun _ => 0
    oppositeH := fun h => h
    nextH := id
    prevH := id
    faceOfH := fun _ => none
    edgeOfH := id
    valence := fun _ => 3
    isBoundaryV := fun _ => false
    isIsolatedV := fun _ => false
    cwRotated := fun h => h + 1
    isCollapseOkB := fun _ => true }

/-- Concrete positions for the C5 and C6 counterexamples: a unit right
triangle at vertices 0, 1, 2 and the collapse target vertex 3 at the same
position as vertex 0 (so the tentative move changes nothing). -/
def vpW5 : V → Point := fun v =>
  if v = 1 then ⟨1, 0, 0⟩ else if v = 2 then ⟨0, 1, 0⟩ else ⟨0, 0, 0⟩

/-- Concrete engine state for the claim C5 counterexample: aspect-ratio
bound 1, every other check disabled or trivially passing. -/
def stW5 : SimpState :=
  { mesh := meshW5
    vpoint := vpW5
    vquadric := fun _ => Quadric.zero
    fnormal := fun _ => ⟨0, 0, 1⟩
    normalCone := fun _ => NormalCone.ofNormal ⟨0, 0, 1⟩
    facePoints := fun _ => []
    vselected := fun _ => true
    vfeature := fun _ => false
    efeature := fun _ => false
    hasSelection := false
    hasFeatures := false
    aspectRatio := 1
    edgeLength := 0
    normalDeviation := 0
    hausdorffError := 0
    maxValence := 0
    initialized := true }

/-- Concrete collapse descriptor for the claim C5 counterexample: removing
vertex 0 into vertex 3 (which sits at the same position), with no incident
left or right face. -/
def cdW5 : CollapseData :=
  ⟨0, 0, 0, 3, none, none, none, none, none, none, none, none⟩

theorem stW5_vpoint_v1 : stW5.vpoint cdW5.v1 = stW5.vpoint cdW5.v0 := rfl

theorem stW5_upd1 :
    Function.update stW5.vpoint cdW5.v0 (stW5.vpoint cdW5.v1) = stW5.vpoint := by
  rw [stW5_vpoint_v1]
  exact Function.update_eq_self cdW5.v0 stW5.vpoint

theorem stW5_upd0 :
    Function.update stW5.vpoint cdW5.v0 (stW5.vpoint cdW5.v0) = stW5.vpoint :=
  Function.update_eq_self cdW5.v0 stW5.vpoint

theorem stW5_worst : worstAspect extSample stW5.vpoint stW5.mesh cdW5 = 2 := by
  unfold worstAspect
  norm_num [stW5, meshW5, cdW5, vpW5, aspect_ratio, extSample, sqrnorm, dot,
    cross, Vec3.sub_def, max_def, List.filter_cons, List.foldl_cons,
    List.foldl_nil, Option.some_ne_none]

/-- Counterexample to claim C5 as stated: at this concrete candidate the
post-move worst aspect ratio exceeds the bound and equals the pre-move worst
ratio (it is "not an improvement"), yet the aspect-ratio condition does not
reject and the whole legality check accepts — the rejection requires the
post-move ratio to be strictly worse. -/
theorem claim_C5_counterexample :
    stW5.aspectRatio ≠ 0
      ∧ worstAspect extSample
          (Function.update stW5.vpoint cdW5.v0 (stW5.vpoint cdW5.v1))
          stW5.mesh cdW5 > stW5.aspectRatio
      ∧ worstAspect extSample
          (Function.update stW5.vpoint cdW5.v0 (stW5.vpoint cdW5.v1))
          stW5.mesh cdW5
        = worstAspect extSample
            (Function.update stW5.vpoint cdW5.v0 (stW5.vpoint cdW5.v0))
            stW5.mesh cdW5
      ∧ arCheckRejects extSample stW5 cdW5
          (Function.update stW5.vpoint cdW5.v0 (stW5.vpoint cdW5.v1))
          (Function.update stW5.vpoint cdW5.v0 (stW5.vpoint cdW5.v0)) = false
      ∧ (isCollapseLegal extSample stW5 cdW5).1 = true := by
  have h1 := stW5_upd1
  have h0 := stW5_upd0
  have harc2 : arCheckRejects extSample stW5 cdW5 stW5.vpoint stW5.vpoint
      = false := by
    unfold arCheckRejects
    rw [arFold_eq, stW5_worst]
    norm_num [stW5]
  refine ⟨by norm_num [stW5], ?_, ?_, ?_, ?_⟩
  · rw [h1, stW5_worst]
    norm_num [stW5]
  · rw [h1, h0]
  · rw [h1, h0]
    exact harc2
  · have hsel : selectionReject stW5 cdW5 = false := rfl
    have hfeat : featureReject stW5 cdW5 = false := rfl
    have hbnd : boundaryReject stW5 cdW5 = false := rfl
    have hmin : minIncidenceReject stW5 cdW5 = false := by decide
    have htop : topoReject stW5 cdW5 = false := rfl
    have hval : valenceReject stW5 cdW5 = false := by decide
    have hedge : edgeLengthReject extSample stW5 cdW5 (stW5.vpoint cdW5.v1)
        = false := by
      unfold edgeLengthReject
      norm_num [stW5]
    have hedge0 : edgeLengthReject extSample stW5 cdW5 (stW5.vpoint cdW5.v0)
        = false := by
      unfold edgeLengthReject
      norm_num [stW5]
    have hflip2 : flipReject stW5 cdW5 stW5.vpoint = false := by
      unfold flipReject
      norm_num [stW5, meshW5, cdW5, computeFaceNormal, vpW5, cross, dot,
        Vec3.sub_def]
    have hnd5 : stW5.normalDeviation = (0 : ℚ) := rfl
    have ha5 : stW5.aspectRatio = (1 : ℚ) := rfl
    have hh5 : stW5.hausdorffError = (0 : ℚ) := rfl
    unfold isCollapseLegal shapeStage aspectStage hausdorffStage
    dsimp only
    simp [hsel, hfeat, hbnd, hmin, htop, hval, hedge, hedge0, hnd5, ha5, hh5,
      hflip2, harc2, stW5_vpoint_v1, Function.update_idem,
      Function.update_eq_self]

/-! ### Normal-flip check (claim C6) -/

/-- Concrete engine state for the claim C6 counterexample: identical to the
C5 state except that the stored face-normal property disagrees with the
face's current geometric normal (it is stale, as after earlier collapses). -/
def stW6 : SimpState := { stW5 with fnormal := fun _ => ⟨0, 0, -1⟩ }

/-- Concrete collapse descriptor for the claim C6 counterexample. -/
def cdW6 : CollapseData :=
  ⟨0, 0, 0, 3, none, none, none, none, none, none, none, none⟩

theorem stW6_vpoint_v1 : stW6.vpoint cdW6.v1 = stW6.vpoint cdW6.v0 := rfl

theorem stW6_upd1 :
    Function.update stW6.vpoint cdW6.v0 (stW6.vpoint cdW6.v1) = stW6.vpoint := by
  rw [stW6_vpoint_v1]
  exact Function.update_eq_self cdW6.v0 stW6.vpoint

/-- Counterexample to claim C6 as stated: with angular deviation disabled,
at this concrete state the recomputed normal of the only incident face
agrees with the face's geometric normal immediately before the tentative
move (their dot product is positive), so the claim predicts acceptance —
but `is_collapse_legal` rejects, because the source compares against the
stored `f:normal` property (computed when the engine was constructed and
never refreshed), which here points the other way. -/
theorem claim_C6_counterexample :
    stW6.normalDeviation = 0
      ∧ (isCollapseLegal extSample stW6 cdW6).1 = false
      ∧ ∀ f ∈ stW6.mesh.facesOf cdW6.v0,
          ¬(some f ≠ cdW6.fl ∧ some f ≠ cdW6.fr
            ∧ dot (computeFaceNormal stW6.vpoint stW6.mesh f)
                (computeFaceNormal
                  (Function.update stW6.vpoint cdW6.v0 (stW6.vpoint cdW6.v1))
                  stW6.mesh f) < 0) := by
  refine ⟨rfl, ?_, ?_⟩
  · have hsel : selectionReject stW6 cdW6 = false := rfl
    have hfeat : featureReject stW6 cdW6 = false := rfl
    have hbnd : boundaryReject stW6 cdW6 = false := rfl
    have hmin : minIncidenceReject stW6 cdW6 = false := by decide
    have htop : topoReject stW6 cdW6 = false := rfl
    have hval : valenceReject stW6 cdW6 = false := by decide
    have hedge : edgeLengthReject extSample stW6 cdW6 (stW6.vpoint cdW6.v1)
        = false := by
      unfold edgeLengthReject
      norm_num [stW6, stW5]
    have hflip6 : flipReject stW6 cdW6 stW6.vpoint = true := by
      unfold flipReject
      norm_num [stW6, stW5, meshW5, cdW6, computeFaceNormal, vpW5, cross, dot,
        Vec3.sub_def, Option.some_ne_none]
    have hnd6 : stW6.normalDeviation = (0 : ℚ) := rfl
    unfold isCollapseLegal shapeStage
    dsimp only
    simp [hsel, hfeat, hbnd, hmin, htop, hval, hedge, hnd6, hflip6,
      stW6_vpoint_v1, Function.update_idem, Function.update_eq_self]
  · intro f hf
    have hf0 : f = 0 := by
      simpa [stW6, stW5, meshW5, cdW6] using hf
    subst hf0
    intro hcon
    have hd := hcon.2.2
    rw [stW6_upd1] at hd
    norm_num [stW6, stW5, meshW5, cdW6, computeFaceNormal, vpW5, cross, dot,
      Vec3.sub_def] at hd

/-- Claim C6 (amended): when angular-deviation checking is disabled, the
flip step of `is_collapse_legal` — evaluated with `v0` tentatively moved to
`v1`'s position — rejects exactly when some face incident to `v0` other than
the two collapsed faces has a recomputed normal whose dot product with the
face normal stored in the `f:normal` property (computed at construction and
not refreshed after collapses) is negative; and the vertex positions are
restored before `is_collapse_legal` returns, whatever the verdict. -/
theorem claim_C6_flip_check (ext : Ext) (st : SimpState) (cd : CollapseData)
    (hnd : st.normalDeviation = 0) :
    (flipReject st cd (Function.update st.vpoint cd.v0 (st.vpoint cd.v1)) = true
        ↔ ∃ f ∈ st.mesh.facesOf cd.v0,
            some f ≠ cd.fl ∧ some f ≠ cd.fr
              ∧ dot (st.fnormal f)
                  (computeFaceNormal
                    (Function.update st.vpoint cd.v0 (st.vpoint cd.v1))
                    st.mesh f) < 0)
      ∧ (isCollapseLegal ext st cd).2 = st.vpoint := by
  constructor
  · unfold flipReject
    simp [List.any_eq_true, Bool.and_eq_true, decide_eq_true_eq, and_assoc]
  · exact isCollapseLegal_snd ext st cd

/-- Witness for the amended claim C6 at the concrete C6 state. -/
theorem claim_C6_witness :
    stW6.normalDeviation = 0
      ∧ ((flipReject stW6 cdW6
              (Function.update stW6.vpoint cdW6.v0 (stW6.vpoint cdW6.v1)) = true
            ↔ ∃ f ∈ stW6.mesh.facesOf cdW6.v0,
                some f ≠ cdW6.fl ∧ some f ≠ cdW6.fr
                  ∧ dot (stW6.fnormal f)
                      (computeFaceNormal
                        (Function.update stW6.vpoint cdW6.v0 (stW6.vpoint cdW6.v1))
                        stW6.mesh f) < 0)
          ∧ (isCollapseLegal extSample stW6 cdW6).2 = stW6.vpoint) :=
  ⟨rfl, claim_C6_flip_check extSample stW6 cdW6 rfl⟩

/-! ### Selection respect across a whole simplify run (claim C8) -/

/-- Modelled from the spec: basic coherence of the halfedge mesh
collaborator — every halfedge enumerated as outgoing from a vertex has that
vertex as its origin (`from_vertex`). -/
def MeshWF (m : MeshTopo) : Prop :=
  ∀ v : V, ∀ h ∈ m.halfedgesOf v, m.fromVertex h = v

/-- The scheduling invariant of the decimation loop: the queue holds no
duplicates, and every queued vertex has a recorded target halfedge
originating (in the current mesh) at that vertex, and is selected whenever a
selection is active.  This is what a popped entry's commit relies on. -/
def QInv (st : SimpState) (sc : Sched) (q : List V) : Prop :=
  q.Nodup ∧ ∀ v ∈ q,
    (∃ h, sc.vtarget v = some h ∧ st.mesh.fromVertex h = v)
      ∧ (st.hasSelection = true → st.vselected v = true)

theorem mkCollapseData_v0 (m : MeshTopo) (h : H) :
    (mkCollapseData m h).v0 = m.fromVertex h := rfl

theorem ppCones_butNormalCone (ext : Ext) (st : SimpState) (cd : CollapseData) :
    (ppCones ext st cd).mesh = st.mesh ∧ (ppCones ext st cd).vselected = st.vselected
      ∧ (ppCones ext st cd).hasSelection = st.hasSelection
      ∧ (ppCones ext st cd).vpoint = st.vpoint
      ∧ (ppCones ext st cd).hausdorffError = st.hausdorffError := by
  unfold ppCones
  split <;> exact ⟨rfl, rfl, rfl, rfl, rfl⟩

theorem ppHausdorff_butFacePoints (ext : Ext) (st : SimpState)
    (cd : CollapseData) :
    (ppHausdorff ext st cd).mesh = st.mesh
      ∧ (ppHausdorff ext st cd).vselected = st.vselected
      ∧ (ppHausdorff ext st cd).hasSelection = st.hasSelection := by
  unfold ppHausdorff
  split <;> exact ⟨rfl, rfl, rfl⟩

theorem postprocess_mesh (ext : Ext) (st : SimpState) (cd : CollapseData) :
    (postprocessCollapse ext st cd).mesh = st.mesh := by
  unfold postprocessCollapse
  rw [(ppHausdorff_butFacePoints ext _ cd).1, (ppCones_butNormalCone ext _ cd).1]
  rfl

theorem postprocess_vselected (ext : Ext) (st : SimpState) (cd : CollapseData) :
    (postprocessCollapse ext st cd).vselected = st.vselected := by
  unfold postprocessCollapse
  rw [(ppHausdorff_butFacePoints ext _ cd).2.1, (ppCones_butNormalCone ext _ cd).2.1]
  rfl

theorem postprocess_hasSelection (ext : Ext) (st : SimpState)
    (cd : CollapseData) :
    (postprocessCollapse ext st cd).hasSelection = st.hasSelection := by
  unfold postprocessCollapse
  rw [(ppHausdorff_butFacePoints ext _ cd).2.2,
    (ppCones_butNormalCone ext _ cd).2.2.1]
  rfl

theorem QInv_congr (st st' : SimpState) (sc : Sched) (q : List V)
    (hm : st'.mesh = st.mesh) (hs : st'.vselected = st.vselected)
    (hhs : st'.hasSelection = st.hasSelection) :
    QInv st sc q → QInv st' sc q := by
  unfold QInv
  rw [hm, hs, hhs]
  exact id

/-- After committing a collapse that removes the popped vertex `v`, the
invariant survives on the remaining queue: every other queued vertex's
target still originates at its owner (its origin differs from the removed
vertex, so the collaborator's collapse does not redirect it). -/
theorem QInv_after_collapse (cfn : MeshTopo → H → MeshTopo)
    (Hstab : ∀ m h h', m.fromVertex h' ≠ m.fromVertex h →
      (cfn m h).fromVertex h' = m.fromVertex h')
    (st : SimpState) (sc : Sched) (q : List V) (v : V) (hh : H)
    (hinv : QInv st sc q) (hv : st.mesh.fromVertex hh = v) :
    QInv {st with mesh := cfn st.mesh hh} sc (q.erase v) := by
  obtain ⟨hnd, hq⟩ := hinv
  refine ⟨hnd.erase v, ?_⟩
  intro u hu
  have hu' : u ∈ q := List.mem_of_mem_erase hu
  have hune : u ≠ v := by
    intro he
    subst he
    exact (hnd.not_mem_erase) hu
  obtain ⟨⟨h', htgt, hfv⟩, hsel⟩ := hq u hu'
  refine ⟨⟨h', htgt, ?_⟩, hsel⟩
  have : st.mesh.fromVertex h' ≠ st.mesh.fromVertex hh := by
    rw [hfv, hv]
    exact hune
  exact (Hstab st.mesh hh h' this).trans hfv

/-- A legality verdict of `true` passes the selection step: when a selection
is active the candidate's removed vertex carries the marker. -/
theorem legal_selected (ext : Ext) (st : SimpState) (cd : CollapseData)
    (hlegal : (isCollapseLegal ext st cd).1 = true)
    (hsel : st.hasSelection = true) : st.vselected cd.v0 = true := by
  have hsr : selectionReject st cd = false := by
    by_contra hne
    have hsr' : selectionReject st cd = true := by
      cases hx : selectionReject st cd
      · exact absurd hx hne
      · rfl
    unfold isCollapseLegal at hlegal
    rw [if_pos hsr'] at hlegal
    exact Bool.false_ne_true hlegal
  unfold selectionReject at hsr
  rw [hsel] at hsr
  cases hx : st.vselected cd.v0
  · rw [hx] at hsr
    simp at hsr
  · rfl

theorem btFold_some (ext : Ext) (st : SimpState) :
    ∀ (hs : List H) (acc : ℚ × Option H × SimpState), acc.2.2 = st →
      ∀ h, (hs.foldl (btStep ext) acc).2.1 = some h →
        acc.2.1 = some h
          ∨ (h ∈ hs ∧ (isCollapseLegal ext st (mkCollapseData st.mesh h)).1 = true) := by
  intro hs
  induction hs with
  | nil => intro acc _ h hfold; exact Or.inl hfold
  | cons hd t ih =>
    intro acc hacc h hfold
    rw [List.foldl_cons] at hfold
    rcases ih (btStep ext acc hd) ((btStep_state ext acc hd).trans hacc) h hfold
      with hl | hr
    · unfold btStep at hl
      dsimp only at hl
      rw [hacc] at hl
      split at hl
      · split at hl
        · dsimp only at hl
          injection hl with he
          subst he
          next hleg _ => exact Or.inr ⟨List.mem_cons_self hd t, hleg⟩
        · exact Or.inl hl
      · exact Or.inl hl
    · exact Or.inr ⟨List.mem_cons_of_mem hd hr.1, hr.2⟩

theorem bestTarget_some_spec (ext : Ext) (st : SimpState) (hs : List H)
    (h : H) (hbt : (bestTarget ext st hs).2.1 = some h) :
    h ∈ hs ∧ (isCollapseLegal ext st (mkCollapseData st.mesh h)).1 = true := by
  rcases btFold_some ext st hs (fltMax, none, st) rfl h hbt with hl | hr
  · cases hl
  · exact hr

theorem enqueue_vertex_QInv (ext : Ext) (st : SimpState) (sc : Sched)
    (q : List V) (v : V) (hwf : MeshWF st.mesh) (hinv : QInv st sc q) :
    QInv st (enqueue_vertex ext st sc q v).2.1
      (enqueue_vertex ext st sc q v).2.2 := by
  obtain ⟨hnd, hq⟩ := hinv
  unfold enqueue_vertex
  dsimp only
  cases hbt : (bestTarget ext st (st.mesh.halfedgesOf v)).2.1 with
  | none =>
    dsimp only
    refine ⟨?_, ?_⟩
    · by_cases hvq : v ∈ q
      · rw [if_pos hvq]
        exact hnd.erase v
      · rw [if_neg hvq]
        exact hnd
    · intro u hu
      by_cases hvq : v ∈ q
      · rw [if_pos hvq] at hu
        have hu' : u ∈ q := List.mem_of_mem_erase hu
        have hune : u ≠ v := by
          intro he
          subst he
          exact hnd.not_mem_erase hu
        obtain ⟨⟨h', htgt, hfv⟩, hs⟩ := hq u hu'
        refine ⟨⟨h', ?_, hfv⟩, hs⟩
        show Function.update sc.vtarget v none u = some h'
        rw [Function.update_noteq hune]
        exact htgt
      · rw [if_neg hvq] at hu
        have hune : u ≠ v := by
          intro he
          subst he
          exact hvq hu
        obtain ⟨⟨h', htgt, hfv⟩, hs⟩ := hq u hu
        refine ⟨⟨h', ?_, hfv⟩, hs⟩
        show Function.update sc.vtarget v none u = some h'
        rw [Function.update_noteq hune]
        exact htgt
  | some h =>
    obtain ⟨hmem, hleg⟩ := bestTarget_some_spec ext st _ h hbt
    have hfv : st.mesh.fromVertex h = v := hwf v h hmem
    dsimp only
    refine ⟨?_, ?_⟩
    · by_cases hvq : v ∈ q
      · rw [if_pos hvq]
        exact hnd
      · rw [if_neg hvq]
        exact List.nodup_cons.mpr ⟨hvq, hnd⟩
    · intro u hu
      by_cases huv : u = v
      · subst huv
        refine ⟨⟨h, ?_, hfv⟩, ?_⟩
        · show Function.update sc.vtarget u (some h) u = some h
          rw [Function.update_same]
        intro hsel
        have := legal_selected ext st (mkCollapseData st.mesh h) hleg hsel
        rw [mkCollapseData_v0, hfv] at this
        exact this
      · have hu' : u ∈ q := by
          by_cases hvq : v ∈ q
          · rw [if_pos hvq] at hu
            exact hu
          · rw [if_neg hvq] at hu
            rcases List.mem_cons.mp hu with he | h2
            · exact absurd he huv
            · exact h2
        obtain ⟨⟨h', htgt, hfv'⟩, hs⟩ := hq u hu'
        refine ⟨⟨h', ?_, hfv'⟩, hs⟩
        show Function.update sc.vtarget v (some h) u = some h'
        rw [Function.update_noteq huv]
        exact htgt

theorem enqueueAll_QInv (ext : Ext) (vs : List V) :
    ∀ (st : SimpState) (sc : Sched) (q : List V), MeshWF st.mesh →
      QInv st sc q →
      QInv st (enqueueAll ext (st, sc, q) vs).2.1
        (enqueueAll ext (st, sc, q) vs).2.2 := by
  induction vs with
  | nil => intro st sc q _ hinv; exact hinv
  | cons v t ih =>
    intro st sc q hwf hinv
    unfold enqueueAll at ih ⊢
    rw [List.foldl_cons]
    dsimp only
    have hst : (enqueue_vertex ext st sc q v).1 = st :=
      enqueue_vertex_state ext st sc q v
    have htriple : enqueue_vertex ext st sc q v
        = (st, (enqueue_vertex ext st sc q v).2.1,
            (enqueue_vertex ext st sc q v).2.2) :=
      Prod.ext_iff.mpr ⟨hst, rfl⟩
    rw [htriple]
    exact ih st _ _ hwf (enqueue_vertex_QInv ext st sc q v hwf hinv)

theorem collapseLoop_selection (cfn : MeshTopo → H → MeshTopo) (ext : Ext)
    (n : Nat)
    (Hwf : ∀ m h, MeshWF m → MeshWF (cfn m h))
    (Hrem : ∀ m h w, w ∈ m.vertexList → w ≠ m.fromVertex h →
      w ∈ (cfn m h).vertexList)
    (Hstab : ∀ m h h', m.fromVertex h' ≠ m.fromVertex h →
      (cfn m h).fromVertex h' = m.fromVertex h') :
    ∀ (fuel nv : Nat) (st : SimpState) (sc : Sched) (q : List V),
      MeshWF st.mesh → QInv st sc q → st.hasSelection = true →
      ∀ w, w ∈ st.mesh.vertexList → st.vselected w = false →
        w ∈ (collapseLoop cfn ext n fuel nv st sc q).1.mesh.vertexList := by
  intro fuel
  induction fuel with
  | zero =>
    intro nv st sc q _ _ _ w hw _
    simp only [collapseLoop]
    exact hw
  | succ f ih =>
    intro nv st sc q hwf hinv hsel w hw hwsel
    simp only [collapseLoop]
    by_cases hcond : nv > n ∧ q ≠ []
    · rw [if_pos hcond]
      cases hpop : popFront sc.vpriority q with
      | none => exact hw
      | some v =>
        dsimp only
        have hvq := (popFront_spec sc.vpriority q v hpop).1
        obtain ⟨hnd, hq⟩ := hinv
        obtain ⟨⟨hh, htgt, hfv⟩, hvsel⟩ := hq v hvq
        rw [htgt]
        dsimp only
        by_cases hok : st.mesh.isCollapseOkB hh = true
        · rw [if_pos hok]
          have hwne : w ≠ st.mesh.fromVertex hh := by
            rw [hfv]
            intro he
            rw [he, hvsel hsel] at hwsel
            exact absurd hwsel (by decide)
          have hw1 : w ∈ (cfn st.mesh hh).vertexList := Hrem st.mesh hh w hw hwne
          have hinv1 : QInv {st with mesh := cfn st.mesh hh} sc (q.erase v) :=
            QInv_after_collapse cfn Hstab st sc q v hh ⟨hnd, hq⟩ hfv
          have hm2 : (postprocessCollapse ext {st with mesh := cfn st.mesh hh}
              (mkCollapseData st.mesh hh)).mesh = cfn st.mesh hh :=
            postprocess_mesh ext _ _
          have hs2 : (postprocessCollapse ext {st with mesh := cfn st.mesh hh}
              (mkCollapseData st.mesh hh)).vselected = st.vselected :=
            postprocess_vselected ext _ _
          have hh2 : (postprocessCollapse ext {st with mesh := cfn st.mesh hh}
              (mkCollapseData st.mesh hh)).hasSelection = st.hasSelection :=
            postprocess_hasSelection ext _ _
          have hwf2 : MeshWF (postprocessCollapse ext
              {st with mesh := cfn st.mesh hh} (mkCollapseData st.mesh hh)).mesh := by
            rw [hm2]
            exact Hwf st.mesh hh hwf
          have hinv2 : QInv (postprocessCollapse ext
              {st with mesh := cfn st.mesh hh} (mkCollapseData st.mesh hh))
              sc (q.erase v) :=
            QInv_congr {st with mesh := cfn st.mesh hh} _ sc (q.erase v)
              hm2 hs2 hh2 hinv1
          have hq3 := enqueueAll_QInv ext
            (st.mesh.verticesOf (mkCollapseData st.mesh hh).v0)
            (postprocessCollapse ext {st with mesh := cfn st.mesh hh}
              (mkCollapseData st.mesh hh)) sc (q.erase v) hwf2 hinv2
          have hst3 : (enqueueAll ext
              (postprocessCollapse ext {st with mesh := cfn st.mesh hh}
                (mkCollapseData st.mesh hh), sc, q.erase v)
              (st.mesh.verticesOf (mkCollapseData st.mesh hh).v0)).1
              = postprocessCollapse ext {st with mesh := cfn st.mesh hh}
                  (mkCollapseData st.mesh hh) :=
            enqueueAll_state ext _ _
          refine ih (nv - 1) _ _ _ ?_ ?_ ?_ w ?_ ?_
          · rw [hst3]
            exact hwf2
          · rw [hst3]
            exact hq3
          · rw [hst3, hh2]
            exact hsel
          · rw [hst3, hm2]
            exact hw1
          · rw [hst3, hs2]
            exact hwsel
        · rw [if_neg hok]
          exact ih nv st sc (q.erase v) hwf
            ⟨hnd.erase v, fun u hu => hq u (List.mem_of_mem_erase hu)⟩
            hsel w hw hwsel
    · rw [if_neg hcond]
      exact hw

theorem initializeEngine_vselected (st : SimpState) (a e : ℚ) (v : Nat)
    (nd he : ℚ) : (initializeEngine st a e v nd he).vselected = st.vselected := by
  unfold initializeEngine
  split <;> rfl

theorem simplifyMain_selection (cfn : MeshTopo → H → MeshTopo)
    (gcFn : MeshTopo → MeshTopo) (ext : Ext) (st : SimpState) (n : Nat)
    (Hwf0 : MeshWF st.mesh)
    (Hwf : ∀ m h, MeshWF m → MeshWF (cfn m h))
    (Hrem : ∀ m h w, w ∈ m.vertexList → w ≠ m.fromVertex h →
      w ∈ (cfn m h).vertexList)
    (Hstab : ∀ m h h', m.fromVertex h' ≠ m.fromVertex h →
      (cfn m h).fromVertex h' = m.fromVertex h')
    (Hgc : ∀ m w, w ∈ m.vertexList → w ∈ (gcFn m).vertexList)
    (hsel : st.hasSelection = true) :
    ∀ w, w ∈ st.mesh.vertexList → st.vselected w = false →
      w ∈ (simplifyMain cfn gcFn ext st n).mesh.vertexList := by
  intro w hw hwsel
  unfold simplifyMain
  dsimp only
  refine Hgc _ w ?_
  have hseed1 : (enqueueAll ext (st, ⟨fun _ => 0, fun _ => none⟩, [])
      st.mesh.vertexList).1 = st := enqueueAll_state ext _ _
  have hseedInv := enqueueAll_QInv ext st.mesh.vertexList st
    ⟨fun _ => 0, fun _ => none⟩ [] Hwf0
    ⟨List.nodup_nil, fun u hu => absurd hu (List.not_mem_nil u)⟩
  exact collapseLoop_selection cfn ext n Hwf Hrem Hstab _ _ _ _ _
    (by rw [hseed1]; exact Hwf0) (by rw [hseed1]; exact hseedInv)
    (by rw [hseed1]; exact hsel) w (by rw [hseed1]; exact hw)
    (by rw [hseed1]; exact hwsel)

/-- Claim C8: when the selection constraint is active for the run (the
engine's `has_selection_` flag, as set up by `initialize` — run lazily with
defaults when needed — is on), every vertex removed by any collapse
committed during `simplify` is a selected vertex, so unselected vertices
survive the whole run.  The collapse, garbage-collection and mesh
collaborators are constrained only by their spec-level contracts: outgoing
halfedges originate at their vertex and this coherence survives a collapse,
`collapse(h)` removes exactly the origin of `h`, origins of halfedges rooted
elsewhere are unaffected, and garbage collection keeps live vertices. -/
theorem claim_C8_selection_respected (cfn : MeshTopo → H → MeshTopo)
    (gcFn : MeshTopo → MeshTopo) (ext : Ext) (st : SimpState) (n : Nat)
    (Hwf0 : MeshWF st.mesh)
    (Hwf : ∀ m h, MeshWF m → MeshWF (cfn m h))
    (Hrem : ∀ m h w, w ∈ m.vertexList → w ≠ m.fromVertex h →
      w ∈ (cfn m h).vertexList)
    (Hstab : ∀ m h h', m.fromVertex h' ≠ m.fromVertex h →
      (cfn m h).fromVertex h' = m.fromVertex h')
    (Hgc : ∀ m w, w ∈ m.vertexList → w ∈ (gcFn m).vertexList)
    (hsel : (if st.initialized = true then st
        else initializeEngine st 0 0 0 0 0).hasSelection = true) :
    ∀ w, w ∈ st.mesh.vertexList → st.vselected w = false →
      w ∈ (simplify cfn gcFn ext st n).1.mesh.vertexList := by
  intro w hw hwsel
  unfold simplify
  by_cases htri : st.mesh.isTriangle = true
  · simp only [htri, Bool.not_true, Bool.false_eq_true, if_false]
    by_cases hini : st.initialized = true
    · rw [if_pos hini] at hsel ⊢
      exact simplifyMain_selection cfn gcFn ext st n Hwf0 Hwf Hrem Hstab Hgc
        hsel w hw hwsel
    · rw [if_neg hini] at hsel ⊢
      refine simplifyMain_selection cfn gcFn ext _ n ?_ Hwf Hrem Hstab Hgc
        hsel w ?_ ?_
      · rw [initializeEngine_mesh]
        exact Hwf0
      · rw [initializeEngine_mesh]
        exact hw
      · rw [initializeEngine_vselected]
        exact hwsel
  · have hfalse : st.mesh.isTriangle = false := by
      cases hx : st.mesh.isTriangle
      · rfl
      · exact absurd hx htri
    simp only [hfalse, Bool.not_false, if_true]
    exact hw

/-- Concrete collapse collaborator for the claim C8 witness: removes exactly
the origin vertex of the collapsed halfedge and leaves every topology query
unchanged. -/
def cfnW8 : MeshTopo → H → MeshTopo := fun m h =>
  { m with vertexList := m.vertexList.filter (fun w => decide (w ≠ m.fromVertex h)) }

/-- Concrete mesh for the claim C8 witness. -/
def meshW8 : MeshTopo := { meshW5 with halfedgesOf := fun _ => [] }

/-- Concrete engine state for the claim C8 witness: vertex 2 unselected,
the rest selected, selection active, engine initialized. -/
def stW8 : SimpState :=
  { stW5 with
    mesh := meshW8
    vselected := fun w => decide (w ≠ 2)
    hasSelection := true }

/-- Witness for claim C8: every hypothesis holds for the concrete collapse
collaborator and state, and the unselected vertex 2 survives the run. -/
theorem claim_C8_witness :
    MeshWF stW8.mesh
      ∧ (∀ m h, MeshWF m → MeshWF (cfnW8 m h))
      ∧ (∀ m h w, w ∈ m.vertexList → w ≠ m.fromVertex h →
          w ∈ (cfnW8 m h).vertexList)
      ∧ (∀ m h h', m.fromVertex h' ≠ m.fromVertex h →
          (cfnW8 m h).fromVertex h' = m.fromVertex h')
      ∧ (∀ (m : MeshTopo) (w : V), w ∈ m.vertexList →
          w ∈ ((fun m => m) m).vertexList)
      ∧ (if stW8.initialized = true then stW8
          else initializeEngine stW8 0 0 0 0 0).hasSelection = true
      ∧ (2 ∈ stW8.mesh.vertexList → stW8.vselected 2 = false →
          2 ∈ (simplify cfnW8 (fun m => m) extSample stW8 0).1.mesh.vertexList)
      ∧ 2 ∈ stW8.mesh.vertexList ∧ stW8.vselected 2 = false := by
  have hwf0 : MeshWF stW8.mesh := by
    intro v h hm
    simp [stW8, meshW8, stW5] at hm
  have hwfp : ∀ m h, MeshWF m → MeshWF (cfnW8 m h) := by
    intro m h hwf v h' hm
    exact hwf v h' hm
  have hrem : ∀ m h w, w ∈ m.vertexList → w ≠ m.fromVertex h →
      w ∈ (cfnW8 m h).vertexList := by
    intro m h w hw hne
    unfold cfnW8
    dsimp only
    rw [List.mem_filter]
    exact ⟨hw, by simpa using hne⟩
  have hstab : ∀ m h h', m.fromVertex h' ≠ m.fromVertex h →
      (cfnW8 m h).fromVertex h' = m.fromVertex h' := fun _ _ _ _ => rfl
  have hgc : ∀ (m : MeshTopo) (w : V), w ∈ m.vertexList →
      w ∈ ((fun m => m) m).vertexList := fun _ _ hw => hw
  refine ⟨hwf0, hwfp, hrem, hstab, hgc, rfl,
    claim_C8_selection_respected cfnW8 (fun m => m) extSample stW8 0
      hwf0 hwfp hrem hstab hgc rfl 2, by decide, by decide⟩

end PmpSimplification
